import Mathlib

/-!
Verification of `asmatrix.c`: packing the columns of a data.table into a
column-major matrix buffer.

A shallow embedding of `src/asmatrix.c` and the properties of its
specification.

Modelling conventions

* A C `int` is an `Int`; the two arithmetic operations of the program
  (`n * p` and `asInteger(rownames) - 1`) are reduced to 32 bits with `wrap32`.
  The arguments `nrow`, `ncol` and `rownames` of `asmatrix` are the `int`
  values that `asInteger` returns for them.
* An R vector is a constructor of `SEXP` carrying its cells.  A cell is an
  `Option`: `none` is a cell in the state `allocVector` left it in, `some x`
  a cell holding `x`.
* The column collection `dt` is a `List SEXP`.
* Everything the C program may do that has no defined result (an index
  outside an object, a typed accessor applied to a vector of another type)
  is a `Fault`, as are the errors raised through the R API.
* The R API that the program calls (`Rinternals.h`, reached through
  `data.table.h`) is not part of the sources; the definitions that stand
  for it say so.
* The six copy routines are translated one by one.  `genRoutine` is the one
  routine they are all proved to be, for a `Kit` of the operations in which
  they differ; `logRoutine` is `genRoutine` with a record of its copies
  (`Move`: source column, source row, destination slot).
-/

namespace AsMatrix

/-! ## R object model -/

/-- Modelled from the spec: the element type tags, `SEXPTYPE` of the R
headers (not in the sources): the six supported element types and the
other tags an R object can have. -/
inductive SEXPTYPE where
  | NILSXP | SYMSXP | LISTSXP | CLOSXP | ENVSXP | PROMSXP | LANGSXP
  | SPECIALSXP | BUILTINSXP | CHARSXP | LGLSXP | INTSXP | REALSXP | CPLXSXP
  | STRSXP | DOTSXP | ANYSXP | VECSXP | EXPRSXP | BCODESXP | EXTPTRSXP
  | WEAKREFSXP | RAWSXP | S4SXP
  deriving DecidableEq, Repr

/-- The six tags that the `switch` of `asmatrix` has a case for. -/
def SEXPTYPE.supported : SEXPTYPE → Bool
  | .LGLSXP | .INTSXP | .REALSXP | .CPLXSXP | .STRSXP | .VECSXP => true
  | _ => false

/-- Modelled from the spec: a floating-point element, a C `double`, carried
as its 64-bit pattern; the program only copies it. -/
structure Double where
  bits : Nat
  deriving DecidableEq, Repr

/-- Modelled from the spec: a complex element, the struct `Rcomplex` of the
R headers (not in the sources): a real and an imaginary component. -/
structure Rcomplex where
  r : Double
  i : Double
  deriving DecidableEq, Repr

/-- Modelled from the spec: a text or generic element, a reference to an R
object (a `CHARSXP` in a character vector, any `SEXP` in a generic vector);
it is copied by reference. -/
structure Handle where
  addr : Nat
  deriving DecidableEq, Repr

/-- Modelled from the spec: an R object, `SEXP` of the R headers (not in the
sources), as this program sees it: a vector of one of the six supported
types with its cells, or an object of any other type. -/
inductive SEXP where
  | lgl (data : List (Option Int))
  | int (data : List (Option Int))
  | real (data : List (Option Double))
  | cplx (data : List (Option Rcomplex))
  | str (data : List (Option Handle))
  | vec (data : List (Option Handle))
  | other (t : SEXPTYPE) (h : t.supported = false)
  deriving DecidableEq, Repr

/-- What goes wrong in a run of the program. -/
inductive Fault where
  /-- The error of line 162, `error("Unsupported matrix type '%s'", ...)`. -/
  | unsupportedType (t : SEXPTYPE)
  /-- A call of `allocVector` with a negative length, or for a type tag that
  is not one of the six vector types. -/
  | badAlloc
  /-- A typed accessor (`LOGICAL`, `INTEGER`, `REAL`, `COMPLEX`,
  `STRING_ELT`, `VECTOR_ELT`, ...) applied to an object of another type. -/
  | wrongType
  /-- An index outside the object it is applied to. -/
  | outOfRange
  deriving DecidableEq, Repr

/-- The result of a run: a value or a fault. -/
abbrev Result (α : Type) := Except Fault α

deriving instance DecidableEq for Except

/-! ## C integers -/

/-- The largest value of a C `int` (32 bits). -/
def INT_MAX : Int := 2147483647

/-- The smallest value of a C `int` (32 bits). -/
def INT_MIN : Int := -2147483648

/-- Reduction of an integer to the range of a 32-bit signed `int`. -/
def wrap32 (x : Int) : Int := (x + 2147483648) % 4294967296 - 2147483648

/-! ## R API -/

/-- Modelled from the spec: the R macro `TYPEOF(x)` (not in the sources),
the type tag of an object. -/
def TYPEOF : SEXP → SEXPTYPE
  | .lgl _ => .LGLSXP
  | .int _ => .INTSXP
  | .real _ => .REALSXP
  | .cplx _ => .CPLXSXP
  | .str _ => .STRSXP
  | .vec _ => .VECSXP
  | .other t _ => t

/-- Modelled from the spec: the R function `allocVector(type, length)` (not
in the sources): a fresh vector of `length` cells, none of them written; a
negative length is an error. -/
def allocVector (type : SEXPTYPE) (length : Int) : Result SEXP :=
  if length < 0 then .error .badAlloc
  else match type with
    | .LGLSXP => .ok (.lgl (List.replicate length.toNat none))
    | .INTSXP => .ok (.int (List.replicate length.toNat none))
    | .REALSXP => .ok (.real (List.replicate length.toNat none))
    | .CPLXSXP => .ok (.cplx (List.replicate length.toNat none))
    | .STRSXP => .ok (.str (List.replicate length.toNat none))
    | .VECSXP => .ok (.vec (List.replicate length.toNat none))
    | _ => .error .badAlloc

/-- Modelled from the spec: the R accessor `LOGICAL(x)` (not in the
sources), the `int` cells of a logical vector. -/
def LOGICAL : SEXP → Result (List (Option Int))
  | .lgl d => .ok d
  | _ => .error .wrongType

/-- Modelled from the spec: the R accessor `INTEGER(x)` (not in the
sources), the `int` cells of an integer vector. -/
def INTEGER : SEXP → Result (List (Option Int))
  | .int d => .ok d
  | _ => .error .wrongType

/-- Modelled from the spec: the R accessor `REAL(x)` (not in the sources),
the `double` cells of a numeric vector. -/
def REAL : SEXP → Result (List (Option Double))
  | .real d => .ok d
  | _ => .error .wrongType

/-- Modelled from the spec: the R accessor `COMPLEX(x)` (not in the
sources), the `Rcomplex` cells of a complex vector. -/
def COMPLEX : SEXP → Result (List (Option Rcomplex))
  | .cplx d => .ok d
  | _ => .error .wrongType

/-- A read `p[i]`, for a pointer `p` to the cells of a vector. -/
def readAt {α : Type} (p : List α) (i : Nat) : Result α :=
  match p[i]? with
  | some x => .ok x
  | none => .error .outOfRange

/-- A write `p[i] = x`, for a pointer `p` to the cells of a vector. -/
def writeAt {α : Type} (p : List α) (i : Nat) (x : α) : Result (List α) :=
  if i < p.length then .ok (p.set i x) else .error .outOfRange

/-- Modelled from the spec: the R accessor `VECTOR_ELT(dt, jj)` (not in the
sources) on the column collection: column `jj`. -/
def VECTOR_ELT (dt : List SEXP) (jj : Nat) : Result SEXP :=
  readAt dt jj

/-- Modelled from the spec: the R accessor `STRING_ELT(x, i)` (not in the
sources): cell `i` of a character vector. -/
def STRING_ELT (x : SEXP) (i : Nat) : Result (Option Handle) :=
  match x with
  | .str d => readAt d i
  | _ => .error .wrongType

/-- Modelled from the spec: the R setter `SET_STRING_ELT(x, i, v)` (not in
the sources): cell `i` of a character vector becomes `v`. -/
def SET_STRING_ELT (x : SEXP) (i : Nat) (v : Option Handle) : Result SEXP :=
  match x with
  | .str d => (writeAt d i v).map SEXP.str
  | _ => .error .wrongType

/-- Modelled from the spec: the R accessor `VECTOR_ELT(x, i)` (not in the
sources) on a column: cell `i` of a generic vector. -/
def LIST_ELT (x : SEXP) (i : Nat) : Result (Option Handle) :=
  match x with
  | .vec d => readAt d i
  | _ => .error .wrongType

/-- Modelled from the spec: the R setter `SET_VECTOR_ELT(x, i, v)` (not in
the sources): cell `i` of a generic vector becomes `v`. -/
def SET_VECTOR_ELT (x : SEXP) (i : Nat) (v : Option Handle) : Result SEXP :=
  match x with
  | .vec d => (writeAt d i v).map SEXP.vec
  | _ => .error .wrongType

/-! ## The six copy routines -/

/-- The inner loop of `asmatrix_logical` (lines 19-22):
`for (ii = 0; ii < n; ii++) { pmat[vecIdx] = pcol[ii]; vecIdx++; }`,
with `todo` iterations left. -/
def asmatrix_logical_rows (pcol : List (Option Int)) :
    (todo ii : Nat) → List (Option Int) × Nat → Result (List (Option Int) × Nat)
  | 0, _, st => .ok st
  | todo + 1, ii, (pmat, vecIdx) => do
      let x ← readAt pcol ii
      let pmat ← writeAt pmat vecIdx x
      asmatrix_logical_rows pcol todo (ii + 1) (pmat, vecIdx + 1)

/-- The outer loop of `asmatrix_logical`:
`for (jj = 0; jj < length(dt); jj++)`, with `todo` iterations left. -/
def asmatrix_logical_cols (dt : List SEXP) (n rncolnum : Int) :
    (todo jj : Nat) → List (Option Int) × Nat → Result (List (Option Int) × Nat)
  | 0, _, st => .ok st
  | todo + 1, jj, st =>
      if (jj : Int) = rncolnum then asmatrix_logical_cols dt n rncolnum todo (jj + 1) st
      else do
        let col ← VECTOR_ELT dt jj
        let pcol ← LOGICAL col
        let st ← asmatrix_logical_rows pcol n.toNat 0 st
        asmatrix_logical_cols dt n rncolnum todo (jj + 1) st

/-- The C function `asmatrix_logical`. -/
def asmatrix_logical (dt : List SEXP) (matlen n rncolnum : Int) : Result SEXP := do
  let mat ← allocVector .LGLSXP matlen
  let pmat ← LOGICAL mat
  let (pmat, _) ← asmatrix_logical_cols dt n rncolnum dt.length 0 (pmat, 0)
  pure (.lgl pmat)

/-- The inner loop of `asmatrix_integer` (lines 39-42):
`for (ii = 0; ii < n; ii++) { pmat[vecIdx] = pcol[ii]; vecIdx++; }`,
with `todo` iterations left. -/
def asmatrix_integer_rows (pcol : List (Option Int)) :
    (todo ii : Nat) → List (Option Int) × Nat → Result (List (Option Int) × Nat)
  | 0, _, st => .ok st
  | todo + 1, ii, (pmat, vecIdx) => do
      let x ← readAt pcol ii
      let pmat ← writeAt pmat vecIdx x
      asmatrix_integer_rows pcol todo (ii + 1) (pmat, vecIdx + 1)

/-- The outer loop of `asmatrix_integer`:
`for (jj = 0; jj < length(dt); jj++)`, with `todo` iterations left. -/
def asmatrix_integer_cols (dt : List SEXP) (n rncolnum : Int) :
    (todo jj : Nat) → List (Option Int) × Nat → Result (List (Option Int) × Nat)
  | 0, _, st => .ok st
  | todo + 1, jj, st =>
      if (jj : Int) = rncolnum then asmatrix_integer_cols dt n rncolnum todo (jj + 1) st
      else do
        let col ← VECTOR_ELT dt jj
        let pcol ← INTEGER col
        let st ← asmatrix_integer_rows pcol n.toNat 0 st
        asmatrix_integer_cols dt n rncolnum todo (jj + 1) st

/-- The C function `asmatrix_integer`. -/
def asmatrix_integer (dt : List SEXP) (matlen n rncolnum : Int) : Result SEXP := do
  let mat ← allocVector .INTSXP matlen
  let pmat ← INTEGER mat
  let (pmat, _) ← asmatrix_integer_cols dt n rncolnum dt.length 0 (pmat, 0)
  pure (.int pmat)

/-- The inner loop of `asmatrix_numeric` (lines 59-62):
`for (ii = 0; ii < n; ii++) { pmat[vecIdx] = pcol[ii]; vecIdx++; }`,
with `todo` iterations left. -/
def asmatrix_numeric_rows (pcol : List (Option Double)) :
    (todo ii : Nat) → List (Option Double) × Nat → Result (List (Option Double) × Nat)
  | 0, _, st => .ok st
  | todo + 1, ii, (pmat, vecIdx) => do
      let x ← readAt pcol ii
      let pmat ← writeAt pmat vecIdx x
      asmatrix_numeric_rows pcol todo (ii + 1) (pmat, vecIdx + 1)

/-- The outer loop of `asmatrix_numeric`:
`for (jj = 0; jj < length(dt); jj++)`, with `todo` iterations left. -/
def asmatrix_numeric_cols (dt : List SEXP) (n rncolnum : Int) :
    (todo jj : Nat) → List (Option Double) × Nat → Result (List (Option Double) × Nat)
  | 0, _, st => .ok st
  | todo + 1, jj, st =>
      if (jj : Int) = rncolnum then asmatrix_numeric_cols dt n rncolnum todo (jj + 1) st
      else do
        let col ← VECTOR_ELT dt jj
        let pcol ← REAL col
        let st ← asmatrix_numeric_rows pcol n.toNat 0 st
        asmatrix_numeric_cols dt n rncolnum todo (jj + 1) st

/-- The C function `asmatrix_numeric`. -/
def asmatrix_numeric (dt : List SEXP) (matlen n rncolnum : Int) : Result SEXP := do
  let mat ← allocVector .REALSXP matlen
  let pmat ← REAL mat
  let (pmat, _) ← asmatrix_numeric_cols dt n rncolnum dt.length 0 (pmat, 0)
  pure (.real pmat)

/-- The inner loop of `asmatrix_complex` (lines 79-82):
`for (ii = 0; ii < n; ii++) { pmat[vecIdx] = pcol[ii]; vecIdx++; }`,
with `todo` iterations left. -/
def asmatrix_complex_rows (pcol : List (Option Rcomplex)) :
    (todo ii : Nat) → List (Option Rcomplex) × Nat → Result (List (Option Rcomplex) × Nat)
  | 0, _, st => .ok st
  | todo + 1, ii, (pmat, vecIdx) => do
      let x ← readAt pcol ii
      let pmat ← writeAt pmat vecIdx x
      asmatrix_complex_rows pcol todo (ii + 1) (pmat, vecIdx + 1)

/-- The outer loop of `asmatrix_complex`:
`for (jj = 0; jj < length(dt); jj++)`, with `todo` iterations left. -/
def asmatrix_complex_cols (dt : List SEXP) (n rncolnum : Int) :
    (todo jj : Nat) → List (Option Rcomplex) × Nat → Result (List (Option Rcomplex) × Nat)
  | 0, _, st => .ok st
  | todo + 1, jj, st =>
      if (jj : Int) = rncolnum then asmatrix_complex_cols dt n rncolnum todo (jj + 1) st
      else do
        let col ← VECTOR_ELT dt jj
        let pcol ← COMPLEX col
        let st ← asmatrix_complex_rows pcol n.toNat 0 st
        asmatrix_complex_cols dt n rncolnum todo (jj + 1) st

/-- The C function `asmatrix_complex`. -/
def asmatrix_complex (dt : List SEXP) (matlen n rncolnum : Int) : Result SEXP := do
  let mat ← allocVector .CPLXSXP matlen
  let pmat ← COMPLEX mat
  let (pmat, _) ← asmatrix_complex_cols dt n rncolnum dt.length 0 (pmat, 0)
  pure (.cplx pmat)

/-- The inner loop of `asmatrix_character` (lines 98-101):
`for (ii = 0; ii < n; ii++) { SET_STRING_ELT(mat, vecIdx, STRING_ELT(pcol, ii)); vecIdx++; }`,
with `todo` iterations left. -/
def asmatrix_character_rows (pcol : SEXP) :
    (todo ii : Nat) → SEXP × Nat → Result (SEXP × Nat)
  | 0, _, st => .ok st
  | todo + 1, ii, (mat, vecIdx) => do
      let x ← STRING_ELT pcol ii
      let mat ← SET_STRING_ELT mat vecIdx x
      asmatrix_character_rows pcol todo (ii + 1) (mat, vecIdx + 1)

/-- The outer loop of `asmatrix_character`:
`for (jj = 0; jj < length(dt); jj++)`, with `todo` iterations left. -/
def asmatrix_character_cols (dt : List SEXP) (n rncolnum : Int) :
    (todo jj : Nat) → SEXP × Nat → Result (SEXP × Nat)
  | 0, _, st => .ok st
  | todo + 1, jj, st =>
      if (jj : Int) = rncolnum then asmatrix_character_cols dt n rncolnum todo (jj + 1) st
      else do
        let pcol ← VECTOR_ELT dt jj
        let st ← asmatrix_character_rows pcol n.toNat 0 st
        asmatrix_character_cols dt n rncolnum todo (jj + 1) st

/-- The C function `asmatrix_character`. -/
def asmatrix_character (dt : List SEXP) (matlen n rncolnum : Int) : Result SEXP := do
  let mat ← allocVector .STRSXP matlen
  let (mat, _) ← asmatrix_character_cols dt n rncolnum dt.length 0 (mat, 0)
  pure mat

/-- The inner loop of `asmatrix_list` (lines 117-120):
`for (ii = 0; ii < n; ii++) { SET_VECTOR_ELT(mat, vecIdx, VECTOR_ELT(pcol, ii)); vecIdx++; }`,
with `todo` iterations left. -/
def asmatrix_list_rows (pcol : SEXP) :
    (todo ii : Nat) → SEXP × Nat → Result (SEXP × Nat)
  | 0, _, st => .ok st
  | todo + 1, ii, (mat, vecIdx) => do
      let x ← LIST_ELT pcol ii
      let mat ← SET_VECTOR_ELT mat vecIdx x
      asmatrix_list_rows pcol todo (ii + 1) (mat, vecIdx + 1)

/-- The outer loop of `asmatrix_list`:
`for (jj = 0; jj < length(dt); jj++)`, with `todo` iterations left. -/
def asmatrix_list_cols (dt : List SEXP) (n rncolnum : Int) :
    (todo jj : Nat) → SEXP × Nat → Result (SEXP × Nat)
  | 0, _, st => .ok st
  | todo + 1, jj, st =>
      if (jj : Int) = rncolnum then asmatrix_list_cols dt n rncolnum todo (jj + 1) st
      else do
        let pcol ← VECTOR_ELT dt jj
        let st ← asmatrix_list_rows pcol n.toNat 0 st
        asmatrix_list_cols dt n rncolnum todo (jj + 1) st

/-- The C function `asmatrix_list`. -/
def asmatrix_list (dt : List SEXP) (matlen n rncolnum : Int) : Result SEXP := do
  let mat ← allocVector .VECSXP matlen
  let (mat, _) ← asmatrix_list_cols dt n rncolnum dt.length 0 (mat, 0)
  pure mat

/-! ## The dispatch function -/

/-- The C function `asmatrix` (lines 128-164).  `nrow`, `ncol` and
`rownames` are the `int` values that `asInteger` returns for the three
scalar arguments. -/
def asmatrix (dt : List SEXP) (nrow ncol rownames : Int) : Result SEXP := do
  let n := nrow
  let p := ncol
  let matlen := wrap32 (n * p)
  let rncolnum := wrap32 (rownames - 1)
  let firstcol : Nat := if rncolnum = 0 then 1 else 0
  let R_atomic_type := TYPEOF (← VECTOR_ELT dt firstcol)
  match R_atomic_type with
  | .LGLSXP => asmatrix_logical dt matlen n rncolnum
  | .INTSXP => asmatrix_integer dt matlen n rncolnum
  | .REALSXP => asmatrix_numeric dt matlen n rncolnum
  | .CPLXSXP => asmatrix_complex dt matlen n rncolnum
  | .STRSXP => asmatrix_character dt matlen n rncolnum
  | .VECSXP => asmatrix_list dt matlen n rncolnum
  | t => .error (.unsupportedType t)

/-! ## Specification-side definitions -/

/-- The columns that the `jj == rncolnum` test lets through, for a
collection whose first column has index `jj`. -/
def retainedFrom (rncolnum : Int) : Nat → List SEXP → List SEXP
  | _, [] => []
  | jj, c :: cs =>
      if (jj : Int) = rncolnum then retainedFrom rncolnum (jj + 1) cs
      else c :: retainedFrom rncolnum (jj + 1) cs

/-- The retained columns of `dt`: all but the one at index `rncolnum`. -/
def retained (dt : List SEXP) (rncolnum : Int) : List SEXP :=
  retainedFrom rncolnum 0 dt

/-- The content of one cell, whatever the type of its vector. -/
inductive Elt where
  | lgl (v : Int)
  | int (v : Int)
  | real (v : Double)
  | cplx (v : Rcomplex)
  | str (v : Handle)
  | vec (v : Handle)
  deriving DecidableEq, Repr

/-- The cells of a vector (none for an object that is not a vector). -/
def SEXP.cells : SEXP → List (Option Elt)
  | .lgl d => d.map (Option.map Elt.lgl)
  | .int d => d.map (Option.map Elt.int)
  | .real d => d.map (Option.map Elt.real)
  | .cplx d => d.map (Option.map Elt.cplx)
  | .str d => d.map (Option.map Elt.str)
  | .vec d => d.map (Option.map Elt.vec)
  | .other _ _ => []

/-- The number of cells of a vector. -/
def SEXP.len (x : SEXP) : Nat := x.cells.length

/-- The column-major packing of the retained columns, `n` cells of each. -/
def packed (dt : List SEXP) (n rncolnum : Int) : List (Option Elt) :=
  (retained dt rncolnum).flatMap (fun c => c.cells.take n.toNat)

/-! ## One loop for the six routines -/

/-- The inner loop, for any cell type. -/
def fillRows {α : Type} (pcol : List α) :
    (todo ii : Nat) → List α × Nat → Result (List α × Nat)
  | 0, _, st => .ok st
  | todo + 1, ii, (pmat, vecIdx) => do
      let x ← readAt pcol ii
      let pmat ← writeAt pmat vecIdx x
      fillRows pcol todo (ii + 1) (pmat, vecIdx + 1)

/-- The outer loop, for any cell type and accessor. -/
def fillCols {α : Type} (get : SEXP → Result (List α)) (dt : List SEXP) (n rncolnum : Int) :
    (todo jj : Nat) → List α × Nat → Result (List α × Nat)
  | 0, _, st => .ok st
  | todo + 1, jj, st =>
      if (jj : Int) = rncolnum then fillCols get dt n rncolnum todo (jj + 1) st
      else do
        let col ← VECTOR_ELT dt jj
        let pcol ← get col
        let st ← fillRows pcol n.toNat 0 st
        fillCols get dt n rncolnum todo (jj + 1) st

/-- A copy routine, for any cell type, accessor and vector constructor. -/
def fillRoutine {α : Type} (mk : List (Option α) → SEXP) (get : SEXP → Result (List (Option α)))
    (dt : List SEXP) (matlen n rncolnum : Int) : Result SEXP :=
  if matlen < 0 then .error .badAlloc
  else match fillCols get dt n rncolnum dt.length 0 (List.replicate matlen.toNat none, 0) with
    | .ok st => .ok (mk st.1)
    | .error e => .error e

/-- The cells of a character vector. -/
def strCells : SEXP → Result (List (Option Handle))
  | .str d => .ok d
  | _ => .error .wrongType

/-- The cells of a generic vector. -/
def vecCells : SEXP → Result (List (Option Handle))
  | .vec d => .ok d
  | _ => .error .wrongType

/-- The cells that a list of columns contributes, `n` of each. -/
def payload {α : Type} (get : SEXP → Result (List α)) (n : Nat) (cols : List SEXP) : List α :=
  cols.flatMap (fun c => match get c with
    | .ok d => d.take n
    | .error _ => [])

/-- The outer loop run over a list of columns, none skipped. -/
def fillList {α : Type} (get : SEXP → Result (List α)) (n : Int) :
    List SEXP → List α × Nat → Result (List α × Nat)
  | [], st => .ok st
  | c :: cs, st => do
      let pcol ← get c
      let st ← fillRows pcol n.toNat 0 st
      fillList get n cs st

/-- The outer loop of `asmatrix_character` run over a list of columns. -/
def characterList (n : Int) : List SEXP → SEXP × Nat → Result (SEXP × Nat)
  | [], st => .ok st
  | pcol :: cs, st => do
      let st ← asmatrix_character_rows pcol n.toNat 0 st
      characterList n cs st

/-- The outer loop of `asmatrix_list` run over a list of columns. -/
def listList (n : Int) : List SEXP → SEXP × Nat → Result (SEXP × Nat)
  | [], st => .ok st
  | pcol :: cs, st => do
      let st ← asmatrix_list_rows pcol n.toNat 0 st
      listList n cs st

/-- The fault is the error of line 162. -/
def Fault.isUnsupported : Fault → Bool
  | .unsupportedType _ => true
  | _ => false

/-- A result that, when a value, satisfies `P`, and when a fault, is not
the error of line 162. -/
def goodRes {σ : Type} (P : σ → Prop) : Result σ → Prop
  | .ok s => P s
  | .error e => e.isUnsupported = false

/-- The six copy routines, each with the type tag it is dispatched on. -/
def routines : List (SEXPTYPE × (List SEXP → Int → Int → Int → Result SEXP)) :=
  [(.LGLSXP, asmatrix_logical), (.INTSXP, asmatrix_integer), (.REALSXP, asmatrix_numeric),
   (.CPLXSXP, asmatrix_complex), (.STRSXP, asmatrix_character), (.VECSXP, asmatrix_list)]

/-! ## The generic copy routine -/

/-- The parts in which the six copy routines differ: how the buffer is
allocated and reached (`alloc`), how the cells of a column are reached
(`column`), how cell `ii` of a column is read (`read`), how slot `vecIdx`
of the buffer is written (`write`), and what is returned (`result`). -/
structure Kit (β γ μ : Type) where
  alloc : Int → Result μ
  column : SEXP → Result β
  read : β → Nat → Result γ
  write : μ → Nat → γ → Result μ
  result : μ → SEXP

/-- The inner loop of the generic routine, with `todo` iterations left. -/
def genRows {β γ μ : Type} (K : Kit β γ μ) (pcol : β) :
    (todo ii : Nat) → μ × Nat → Result (μ × Nat)
  | 0, _, st => .ok st
  | todo + 1, ii, (mat, vecIdx) => do
      let x ← K.read pcol ii
      let mat ← K.write mat vecIdx x
      genRows K pcol todo (ii + 1) (mat, vecIdx + 1)

/-- The outer loop of the generic routine, with `todo` iterations left. -/
def genCols {β γ μ : Type} (K : Kit β γ μ) (dt : List SEXP) (n rncolnum : Int) :
    (todo jj : Nat) → μ × Nat → Result (μ × Nat)
  | 0, _, st => .ok st
  | todo + 1, jj, st =>
      if (jj : Int) = rncolnum then genCols K dt n rncolnum todo (jj + 1) st
      else do
        let col ← VECTOR_ELT dt jj
        let pcol ← K.column col
        let st ← genRows K pcol n.toNat 0 st
        genCols K dt n rncolnum todo (jj + 1) st

/-- The generic copy routine. -/
def genRoutine {β γ μ : Type} (K : Kit β γ μ) (dt : List SEXP) (matlen n rncolnum : Int) :
    Result SEXP := do
  let mat ← K.alloc matlen
  let (mat, _) ← genCols K dt n rncolnum dt.length 0 (mat, 0)
  pure (K.result mat)

/-- The parts of `asmatrix_logical`. -/
def kitLogical : Kit (List (Option Int)) (Option Int) (List (Option Int)) where
  alloc matlen := do
    let mat ← allocVector .LGLSXP matlen
    LOGICAL mat
  column := LOGICAL
  read := readAt
  write := writeAt
  result := SEXP.lgl

/-- The parts of `asmatrix_integer`. -/
def kitInteger : Kit (List (Option Int)) (Option Int) (List (Option Int)) where
  alloc matlen := do
    let mat ← allocVector .INTSXP matlen
    INTEGER mat
  column := INTEGER
  read := readAt
  write := writeAt
  result := SEXP.int

/-- The parts of `asmatrix_numeric`. -/
def kitNumeric : Kit (List (Option Double)) (Option Double) (List (Option Double)) where
  alloc matlen := do
    let mat ← allocVector .REALSXP matlen
    REAL mat
  column := REAL
  read := readAt
  write := writeAt
  result := SEXP.real

/-- The parts of `asmatrix_complex`. -/
def kitComplex : Kit (List (Option Rcomplex)) (Option Rcomplex) (List (Option Rcomplex)) where
  alloc matlen := do
    let mat ← allocVector .CPLXSXP matlen
    COMPLEX mat
  column := COMPLEX
  read := readAt
  write := writeAt
  result := SEXP.cplx

/-- The parts of `asmatrix_character`. -/
def kitCharacter : Kit SEXP (Option Handle) SEXP where
  alloc := allocVector .STRSXP
  column := .ok
  read := STRING_ELT
  write := SET_STRING_ELT
  result := id

/-- The parts of `asmatrix_list`. -/
def kitList : Kit SEXP (Option Handle) SEXP where
  alloc := allocVector .VECSXP
  column := .ok
  read := LIST_ELT
  write := SET_VECTOR_ELT
  result := id

/-- The loop `cols` is the outer loop of the generic routine for `K`. -/
def IsLoopOf {β γ μ : Type} (K : Kit β γ μ)
    (cols : List SEXP → Int → Int → Nat → Nat → μ × Nat → Result (μ × Nat)) : Prop :=
  ∀ dt n rncolnum todo jj st, cols dt n rncolnum todo jj st = genCols K dt n rncolnum todo jj st

/-- The routine `f` is the generic routine for `K`. -/
def IsRoutineOf {β γ μ : Type} (K : Kit β γ μ)
    (f : List SEXP → Int → Int → Int → Result SEXP) : Prop :=
  ∀ dt matlen n rncolnum, f dt matlen n rncolnum = genRoutine K dt matlen n rncolnum

/-! ## The generic routine with a record of its copies -/

/-- One execution of the copy statement of the inner loop: cell `row` of
column `col` is copied to slot `dest` of the buffer. -/
structure Move where
  col : Nat
  row : Nat
  dest : Nat
  deriving DecidableEq, Repr

/-- The inner loop of the generic routine, recording each copy. -/
def logRows {β γ μ : Type} (K : Kit β γ μ) (pcol : β) (jj : Nat) :
    (todo ii : Nat) → (μ × Nat) × List Move → Result ((μ × Nat) × List Move)
  | 0, _, st => .ok st
  | todo + 1, ii, ((mat, vecIdx), log) => do
      let x ← K.read pcol ii
      let mat ← K.write mat vecIdx x
      logRows K pcol jj todo (ii + 1) ((mat, vecIdx + 1), log ++ [⟨jj, ii, vecIdx⟩])

/-- The outer loop of the generic routine, recording each copy. -/
def logCols {β γ μ : Type} (K : Kit β γ μ) (dt : List SEXP) (n rncolnum : Int) :
    (todo jj : Nat) → (μ × Nat) × List Move → Result ((μ × Nat) × List Move)
  | 0, _, st => .ok st
  | todo + 1, jj, st =>
      if (jj : Int) = rncolnum then logCols K dt n rncolnum todo (jj + 1) st
      else do
        let col ← VECTOR_ELT dt jj
        let pcol ← K.column col
        let st ← logRows K pcol jj n.toNat 0 st
        logCols K dt n rncolnum todo (jj + 1) st

/-- The generic copy routine, recording each copy. -/
def logRoutine {β γ μ : Type} (K : Kit β γ μ) (dt : List SEXP) (matlen n rncolnum : Int) :
    Result (SEXP × List Move) := do
  let mat ← K.alloc matlen
  let ((mat, _), log) ← logCols K dt n rncolnum dt.length 0 ((mat, 0), [])
  pure (K.result mat, log)

/-- The dispatch of `asmatrix`, to the routines that record their copies. -/
def logAsmatrix (dt : List SEXP) (nrow ncol rownames : Int) : Result (SEXP × List Move) := do
  let n := nrow
  let p := ncol
  let matlen := wrap32 (n * p)
  let rncolnum := wrap32 (rownames - 1)
  let firstcol : Nat := if rncolnum = 0 then 1 else 0
  let R_atomic_type := TYPEOF (← VECTOR_ELT dt firstcol)
  match R_atomic_type with
  | .LGLSXP => logRoutine kitLogical dt matlen n rncolnum
  | .INTSXP => logRoutine kitInteger dt matlen n rncolnum
  | .REALSXP => logRoutine kitNumeric dt matlen n rncolnum
  | .CPLXSXP => logRoutine kitComplex dt matlen n rncolnum
  | .STRSXP => logRoutine kitCharacter dt matlen n rncolnum
  | .VECSXP => logRoutine kitList dt matlen n rncolnum
  | t => .error (.unsupportedType t)

/-- The copies of `todo` iterations of the inner loop on column `jj`, from
row `ii` and cursor `v`. -/
def rowMoves (jj : Nat) : (todo ii v : Nat) → List Move
  | 0, _, _ => []
  | todo + 1, ii, v => ⟨jj, ii, v⟩ :: rowMoves jj todo (ii + 1) (v + 1)

/-- The copies of `todo` iterations of the outer loop, from column `jj` and
cursor `v`, for `n` rows and exclusion index `rncolnum`. -/
def colMoves (n : Nat) (rncolnum : Int) : (todo jj v : Nat) → List Move
  | 0, _, _ => []
  | todo + 1, jj, v =>
      if (jj : Int) = rncolnum then colMoves n rncolnum todo (jj + 1) v
      else rowMoves jj n 0 v ++ colMoves n rncolnum todo (jj + 1) (v + n)

/-- The copies of a routine on `ncols` columns: a function of the column
count, `n` and the exclusion index alone. -/
def moves (ncols : Nat) (n rncolnum : Int) : List Move :=
  colMoves n.toNat rncolnum ncols 0 0

/-- The number of column indices `jj`, ..., `jj + todo - 1` that the
exclusion test lets through. -/
def keptCount (rncolnum : Int) : (todo jj : Nat) → Nat
  | 0, _ => 0
  | todo + 1, jj =>
      if (jj : Int) = rncolnum then keptCount rncolnum todo (jj + 1)
      else keptCount rncolnum todo (jj + 1) + 1

/-! ## Truncation of the columns -/

/-- The vector cut down to its first `n` cells. -/
def SEXP.truncate (n : Nat) : SEXP → SEXP
  | .lgl d => .lgl (d.take n)
  | .int d => .int (d.take n)
  | .real d => .real (d.take n)
  | .cplx d => .cplx (d.take n)
  | .str d => .str (d.take n)
  | .vec d => .vec (d.take n)
  | .other t h => .other t h

/-- The collection with every column but the one at index `rncolnum` cut
down to its first `n` cells; the first column has index `jj`. -/
def truncateFrom (n : Nat) (rncolnum : Int) : Nat → List SEXP → List SEXP
  | _, [] => []
  | jj, c :: cs =>
      (if (jj : Int) = rncolnum then c else c.truncate n)
        :: truncateFrom n rncolnum (jj + 1) cs

/-- The collection with every retained column cut down to its first `n`
cells. -/
def truncateRetained (dt : List SEXP) (n rncolnum : Int) : List SEXP :=
  truncateFrom n.toNat rncolnum 0 dt

/-- The kit reads the same from a column and from the column cut down to
its first `n` cells, at the rows below `n`. -/
def TruncStable {β γ μ : Type} (K : Kit β γ μ) (n : Nat) : Prop :=
  ∀ c, (∀ e, K.column c = .error e → K.column (c.truncate n) = .error e) ∧
    (∀ b, K.column c = .ok b →
      ∃ b2, K.column (c.truncate n) = .ok b2 ∧ ∀ ii, ii < n → K.read b2 ii = K.read b ii)

/-- The contract of claim C12, in its words: the collection has at least
one retained column of a supported type, every retained column has at least
`n` cells, `p` is the number of retained columns, and `n * p` fits an
`int`. -/
def ClaimedContract (dt : List SEXP) (n p rownames : Int) : Prop :=
  (∃ c ∈ retained dt (wrap32 (rownames - 1)), (TYPEOF c).supported = true) ∧
  (∀ c ∈ retained dt (wrap32 (rownames - 1)), n ≤ (c.len : Int)) ∧
  p = ((retained dt (wrap32 (rownames - 1))).length : Int) ∧
  INT_MIN ≤ n * p ∧ n * p ≤ INT_MAX

/-- The contract under which a call is safe: the first retained column
exists and has a supported type, every retained column has that type and at
least `n` cells, `n` is not negative, `p` is the number of retained
columns, and `n * p` fits an `int`. -/
def CallerContract (dt : List SEXP) (n p rownames : Int) : Prop :=
  (∃ c0, (retained dt (wrap32 (rownames - 1))).head? = some c0 ∧
    (TYPEOF c0).supported = true ∧
    ∀ c ∈ retained dt (wrap32 (rownames - 1)), TYPEOF c = TYPEOF c0 ∧ n ≤ (c.len : Int)) ∧
  0 ≤ n ∧
  p = ((retained dt (wrap32 (rownames - 1))).length : Int) ∧
  n * p ≤ INT_MAX

/-! ## Type tags and constructors -/

theorem TYPEOF_lgl (c : SEXP) (h : TYPEOF c = .LGLSXP) : ∃ d, c = SEXP.lgl d := by
  cases c with
  | other t ht =>
    simp only [TYPEOF] at h
    subst h
    exact absurd ht (by decide)
  | _ => first | exact ⟨_, rfl⟩ | exact absurd h (by simp [TYPEOF])

theorem TYPEOF_int (c : SEXP) (h : TYPEOF c = .INTSXP) : ∃ d, c = SEXP.int d := by
  cases c with
  | other t ht =>
    simp only [TYPEOF] at h
    subst h
    exact absurd ht (by decide)
  | _ => first | exact ⟨_, rfl⟩ | exact absurd h (by simp [TYPEOF])

theorem TYPEOF_real (c : SEXP) (h : TYPEOF c = .REALSXP) : ∃ d, c = SEXP.real d := by
  cases c with
  | other t ht =>
    simp only [TYPEOF] at h
    subst h
    exact absurd ht (by decide)
  | _ => first | exact ⟨_, rfl⟩ | exact absurd h (by simp [TYPEOF])

theorem TYPEOF_cplx (c : SEXP) (h : TYPEOF c = .CPLXSXP) : ∃ d, c = SEXP.cplx d := by
  cases c with
  | other t ht =>
    simp only [TYPEOF] at h
    subst h
    exact absurd ht (by decide)
  | _ => first | exact ⟨_, rfl⟩ | exact absurd h (by simp [TYPEOF])

theorem TYPEOF_str (c : SEXP) (h : TYPEOF c = .STRSXP) : ∃ d, c = SEXP.str d := by
  cases c with
  | other t ht =>
    simp only [TYPEOF] at h
    subst h
    exact absurd ht (by decide)
  | _ => first | exact ⟨_, rfl⟩ | exact absurd h (by simp [TYPEOF])

theorem TYPEOF_vec (c : SEXP) (h : TYPEOF c = .VECSXP) : ∃ d, c = SEXP.vec d := by
  cases c with
  | other t ht =>
    simp only [TYPEOF] at h
    subst h
    exact absurd ht (by decide)
  | _ => first | exact ⟨_, rfl⟩ | exact absurd h (by simp [TYPEOF])

/-! ## The routines and the one loop -/

theorem asmatrix_logical_rows_eq (pcol : List (Option Int)) (todo ii : Nat)
    (st : List (Option Int) × Nat) :
    asmatrix_logical_rows pcol todo ii st = fillRows pcol todo ii st := by
  induction todo generalizing ii st with
  | zero => rfl
  | succ k ih =>
    obtain ⟨pmat, v⟩ := st
    simp only [asmatrix_logical_rows, fillRows, ih]

theorem asmatrix_logical_cols_eq (dt : List SEXP) (n rn : Int) (todo jj : Nat)
    (st : List (Option Int) × Nat) :
    asmatrix_logical_cols dt n rn todo jj st = fillCols LOGICAL dt n rn todo jj st := by
  induction todo generalizing jj st with
  | zero => rfl
  | succ k ih =>
    simp only [asmatrix_logical_cols, fillCols, ih, asmatrix_logical_rows_eq]

theorem asmatrix_logical_eq (dt : List SEXP) (matlen n rn : Int) :
    asmatrix_logical dt matlen n rn = fillRoutine SEXP.lgl LOGICAL dt matlen n rn := by
  unfold asmatrix_logical fillRoutine allocVector
  by_cases hm : matlen < 0
  · simp only [if_pos hm]; rfl
  · simp only [if_neg hm, asmatrix_logical_cols_eq, bind, Except.bind, LOGICAL]
    cases fillCols LOGICAL dt n rn dt.length 0 (List.replicate matlen.toNat none, 0) <;> rfl

theorem asmatrix_integer_rows_eq (pcol : List (Option Int)) (todo ii : Nat)
    (st : List (Option Int) × Nat) :
    asmatrix_integer_rows pcol todo ii st = fillRows pcol todo ii st := by
  induction todo generalizing ii st with
  | zero => rfl
  | succ k ih =>
    obtain ⟨pmat, v⟩ := st
    simp only [asmatrix_integer_rows, fillRows, ih]

theorem asmatrix_integer_cols_eq (dt : List SEXP) (n rn : Int) (todo jj : Nat)
    (st : List (Option Int) × Nat) :
    asmatrix_integer_cols dt n rn todo jj st = fillCols INTEGER dt n rn todo jj st := by
  induction todo generalizing jj st with
  | zero => rfl
  | succ k ih =>
    simp only [asmatrix_integer_cols, fillCols, ih, asmatrix_integer_rows_eq]

theorem asmatrix_integer_eq (dt : List SEXP) (matlen n rn : Int) :
    asmatrix_integer dt matlen n rn = fillRoutine SEXP.int INTEGER dt matlen n rn := by
  unfold asmatrix_integer fillRoutine allocVector
  by_cases hm : matlen < 0
  · simp only [if_pos hm]; rfl
  · simp only [if_neg hm, asmatrix_integer_cols_eq, bind, Except.bind, INTEGER]
    cases fillCols INTEGER dt n rn dt.length 0 (List.replicate matlen.toNat none, 0) <;> rfl

theorem asmatrix_numeric_rows_eq (pcol : List (Option Double)) (todo ii : Nat)
    (st : List (Option Double) × Nat) :
    asmatrix_numeric_rows pcol todo ii st = fillRows pcol todo ii st := by
  induction todo generalizing ii st with
  | zero => rfl
  | succ k ih =>
    obtain ⟨pmat, v⟩ := st
    simp only [asmatrix_numeric_rows, fillRows, ih]

theorem asmatrix_numeric_cols_eq (dt : List SEXP) (n rn : Int) (todo jj : Nat)
    (st : List (Option Double) × Nat) :
    asmatrix_numeric_cols dt n rn todo jj st = fillCols REAL dt n rn todo jj st := by
  induction todo generalizing jj st with
  | zero => rfl
  | succ k ih =>
    simp only [asmatrix_numeric_cols, fillCols, ih, asmatrix_numeric_rows_eq]

theorem asmatrix_numeric_eq (dt : List SEXP) (matlen n rn : Int) :
    asmatrix_numeric dt matlen n rn = fillRoutine SEXP.real REAL dt matlen n rn := by
  unfold asmatrix_numeric fillRoutine allocVector
  by_cases hm : matlen < 0
  · simp only [if_pos hm]; rfl
  · simp only [if_neg hm, asmatrix_numeric_cols_eq, bind, Except.bind, REAL]
    cases fillCols REAL dt n rn dt.length 0 (List.replicate matlen.toNat none, 0) <;> rfl

theorem asmatrix_complex_rows_eq (pcol : List (Option Rcomplex)) (todo ii : Nat)
    (st : List (Option Rcomplex) × Nat) :
    asmatrix_complex_rows pcol todo ii st = fillRows pcol todo ii st := by
  induction todo generalizing ii st with
  | zero => rfl
  | succ k ih =>
    obtain ⟨pmat, v⟩ := st
    simp only [asmatrix_complex_rows, fillRows, ih]

theorem asmatrix_complex_cols_eq (dt : List SEXP) (n rn : Int) (todo jj : Nat)
    (st : List (Option Rcomplex) × Nat) :
    asmatrix_complex_cols dt n rn todo jj st = fillCols COMPLEX dt n rn todo jj st := by
  induction todo generalizing jj st with
  | zero => rfl
  | succ k ih =>
    simp only [asmatrix_complex_cols, fillCols, ih, asmatrix_complex_rows_eq]

theorem asmatrix_complex_eq (dt : List SEXP) (matlen n rn : Int) :
    asmatrix_complex dt matlen n rn = fillRoutine SEXP.cplx COMPLEX dt matlen n rn := by
  unfold asmatrix_complex fillRoutine allocVector
  by_cases hm : matlen < 0
  · simp only [if_pos hm]; rfl
  · simp only [if_neg hm, asmatrix_complex_cols_eq, bind, Except.bind, COMPLEX]
    cases fillCols COMPLEX dt n rn dt.length 0 (List.replicate matlen.toNat none, 0) <;> rfl

/-! ## What the one loop computes -/

theorem fillRows_spec {α : Type} (pcol : List α) (todo ii : Nat) (w rest : List α)
    (h1 : ii + todo ≤ pcol.length) (h2 : todo ≤ rest.length) :
    fillRows pcol todo ii (w ++ rest, w.length)
      = .ok (w ++ ((pcol.drop ii).take todo ++ rest.drop todo), w.length + todo) := by
  induction todo generalizing ii w rest with
  | zero => simp [fillRows]
  | succ k ih =>
    cases rest with
    | nil => simp at h2
    | cons r rest =>
      have hii : ii < pcol.length := by omega
      have hk : k ≤ rest.length := by simpa using h2
      have hset : (w ++ r :: rest).set w.length pcol[ii] = (w ++ [pcol[ii]]) ++ rest := by
        simp
      have hlen : w.length < (w ++ r :: rest).length := by simp
      have hstep := ih (ii + 1) (w ++ [pcol[ii]]) rest (by omega) hk
      simp only [List.length_append, List.length_singleton] at hstep
      simp only [fillRows, readAt, writeAt, List.getElem?_eq_getElem hii, hlen, if_true,
        hset, hstep, bind, Except.bind]
      rw [List.drop_eq_getElem_cons hii, List.take_succ_cons]
      simp only [List.append_assoc, List.singleton_append, List.cons_append, List.drop_succ_cons,
        Nat.add_assoc, Nat.add_comm 1 k, List.nil_append]

theorem retainedFrom_drop (rn : Int) (dt : List SEXP) (jj : Nat) (c : SEXP)
    (h : dt[jj]? = some c) :
    retainedFrom rn jj (dt.drop jj)
      = if (jj : Int) = rn then retainedFrom rn (jj + 1) (dt.drop (jj + 1))
        else c :: retainedFrom rn (jj + 1) (dt.drop (jj + 1)) := by
  have hlt : jj < dt.length := (List.getElem?_eq_some.mp h).1
  have hc : dt[jj] = c := (List.getElem?_eq_some.mp h).2
  rw [List.drop_eq_getElem_cons hlt, hc]
  simp only [retainedFrom]

theorem retainedFrom_drop_length (rn : Int) (dt : List SEXP) (jj : Nat)
    (h : dt.length ≤ jj) : retainedFrom rn jj (dt.drop jj) = [] := by
  rw [List.drop_eq_nil_of_le h]; rfl

theorem fillCols_spec {α : Type} (get : SEXP → Result (List α)) (dt : List SEXP)
    (n rn : Int) (todo jj : Nat) (w rest : List α)
    (hjj : jj + todo = dt.length)
    (hget : ∀ c ∈ retainedFrom rn jj (dt.drop jj), ∃ d, get c = .ok d ∧ n.toNat ≤ d.length)
    (hroom : n.toNat * (retainedFrom rn jj (dt.drop jj)).length ≤ rest.length) :
    fillCols get dt n rn todo jj (w ++ rest, w.length)
      = .ok (w ++ (payload get n.toNat (retainedFrom rn jj (dt.drop jj))
                    ++ rest.drop (n.toNat * (retainedFrom rn jj (dt.drop jj)).length)),
             w.length + n.toNat * (retainedFrom rn jj (dt.drop jj)).length) := by
  induction todo generalizing jj w rest with
  | zero =>
    have : dt.length ≤ jj := by omega
    simp [fillCols, retainedFrom_drop_length rn dt jj this, payload]
  | succ k ih =>
    have hlt : jj < dt.length := by omega
    have hc : dt[jj]? = some dt[jj] := List.getElem?_eq_getElem hlt
    have hret := retainedFrom_drop rn dt jj dt[jj] hc
    by_cases hskip : (jj : Int) = rn
    · rw [if_pos hskip] at hret
      rw [hret] at hget hroom ⊢
      simp only [fillCols, if_pos hskip]
      exact ih (jj + 1) w rest (by omega) hget hroom
    · rw [if_neg hskip] at hret
      rw [hret] at hget hroom ⊢
      obtain ⟨d, hd, hdn⟩ := hget dt[jj] (List.mem_cons_self _ _)
      have hget2 : ∀ c ∈ retainedFrom rn (jj + 1) (dt.drop (jj + 1)),
          ∃ d, get c = .ok d ∧ n.toNat ≤ d.length :=
        fun c hcm => hget c (List.mem_cons_of_mem _ hcm)
      simp only [List.length_cons, Nat.mul_succ] at hroom ⊢
      have hrows := fillRows_spec d n.toNat 0 w rest (by omega) (by omega)
      have hroom2 : n.toNat * (retainedFrom rn (jj + 1) (dt.drop (jj + 1))).length
          ≤ (rest.drop n.toNat).length := by
        rw [List.length_drop]; omega
      have hstep := ih (jj + 1) (w ++ d.take n.toNat) (rest.drop n.toNat) (by omega) hget2 hroom2
      have hwl : (w ++ d.take n.toNat).length = w.length + n.toNat := by
        rw [List.length_append, List.length_take]; omega
      rw [hwl] at hstep
      simp only [List.drop_zero] at hrows
      simp only [fillCols, if_neg hskip, VECTOR_ELT, readAt, hc, hd, bind, Except.bind, hrows]
      rw [← List.append_assoc, hstep]
      simp only [payload, List.flatMap_cons, hd, List.append_assoc, List.drop_drop]
      simp only [Nat.add_assoc, Nat.add_comm, Nat.add_left_comm]

theorem fillRoutine_spec {α : Type} (mk : List (Option α) → SEXP)
    (get : SEXP → Result (List (Option α))) (dt : List SEXP) (matlen n rn : Int)
    (hm : 0 ≤ matlen)
    (hget : ∀ c ∈ retained dt rn, ∃ d, get c = .ok d ∧ n.toNat ≤ d.length)
    (hroom : n.toNat * (retained dt rn).length ≤ matlen.toNat) :
    fillRoutine mk get dt matlen n rn
      = .ok (mk (payload get n.toNat (retained dt rn)
          ++ List.replicate (matlen.toNat - n.toNat * (retained dt rn).length) none)) := by
  have h := fillCols_spec get dt n rn dt.length 0 [] (List.replicate matlen.toNat none)
    (by simp) (by simpa [retained] using hget) (by simpa [retained] using hroom)
  simp only [List.nil_append, List.length_nil, List.drop_zero, Nat.zero_add,
    List.drop_replicate] at h
  have hneg : ¬ matlen < 0 := by omega
  simp only [fillRoutine, if_neg hneg, h, retained]

theorem payload_cells {α : Type} (mk : List (Option α) → SEXP)
    (get : SEXP → Result (List (Option α))) (e : α → Elt) (n : Nat) (cols : List SEXP)
    (hmk : ∀ d, (mk d).cells = d.map (Option.map e))
    (hget : ∀ c ∈ cols, ∃ d, c = mk d ∧ get c = .ok d) :
    (payload get n cols).map (Option.map e) = cols.flatMap (fun c => c.cells.take n) := by
  induction cols with
  | nil => rfl
  | cons c cs ih =>
    obtain ⟨d, hc, hd⟩ := hget c (List.mem_cons_self _ _)
    have ih2 := ih (fun c hcm => hget c (List.mem_cons_of_mem _ hcm))
    simp only [payload, List.flatMap_cons, List.map_append] at ih2 ⊢
    rw [ih2, hd]
    simp only [hc, hmk, List.map_take]

/-- The packing of a generic routine, seen through `SEXP.cells`. -/
theorem fillRoutine_cells {α : Type} (mk : List (Option α) → SEXP)
    (get : SEXP → Result (List (Option α))) (e : α → Elt) (T : SEXPTYPE)
    (hmk : ∀ d, (mk d).cells = d.map (Option.map e))
    (hT : ∀ c, TYPEOF c = T → ∃ d, c = mk d ∧ get c = .ok d)
    (dt : List SEXP) (matlen n rn : Int)
    (hm : 0 ≤ matlen)
    (hcols : ∀ c ∈ retained dt rn, TYPEOF c = T ∧ n.toNat ≤ c.len)
    (hroom : n.toNat * (retained dt rn).length ≤ matlen.toNat) :
    ∃ d, fillRoutine mk get dt matlen n rn = .ok (mk d) ∧
      (mk d).cells = packed dt n rn
        ++ List.replicate (matlen.toNat - n.toNat * (retained dt rn).length) none := by
  have hget : ∀ c ∈ retained dt rn, ∃ d, c = mk d ∧ get c = .ok d :=
    fun c hc => hT c (hcols c hc).1
  have hget2 : ∀ c ∈ retained dt rn, ∃ d, get c = .ok d ∧ n.toNat ≤ d.length := by
    intro c hc
    obtain ⟨d, hcd, hd⟩ := hget c hc
    refine ⟨d, hd, ?_⟩
    have := (hcols c hc).2
    simpa [SEXP.len, hcd, hmk] using this
  refine ⟨_, fillRoutine_spec mk get dt matlen n rn hm hget2 hroom, ?_⟩
  rw [hmk, List.map_append, payload_cells mk get e n.toNat _ hmk hget]
  simp [packed]

/-! ## The character and list routines and the one loop -/

theorem asmatrix_character_rows_eq (d pm : List (Option Handle)) (todo ii v : Nat) :
    asmatrix_character_rows (.str d) todo ii (.str pm, v)
      = (fillRows d todo ii (pm, v)).map (fun st => (SEXP.str st.1, st.2)) := by
  induction todo generalizing ii pm v with
  | zero => rfl
  | succ k ih =>
    simp only [asmatrix_character_rows, fillRows, STRING_ELT, SET_STRING_ELT, bind, Except.bind]
    cases readAt d ii with
    | error e => rfl
    | ok x =>
      simp only []
      cases writeAt pm v x with
      | error e => rfl
      | ok pm2 => simp only [Except.map, ih]

theorem asmatrix_character_cols_eq (dt : List SEXP) (n rn : Int) (todo jj : Nat)
    (pm : List (Option Handle)) (v : Nat)
    (hjj : jj + todo = dt.length)
    (hcols : ∀ c ∈ retainedFrom rn jj (dt.drop jj), TYPEOF c = .STRSXP) :
    asmatrix_character_cols dt n rn todo jj (.str pm, v)
      = (fillCols strCells dt n rn todo jj (pm, v)).map (fun st => (SEXP.str st.1, st.2)) := by
  induction todo generalizing jj pm v with
  | zero => rfl
  | succ k ih =>
    have hlt : jj < dt.length := by omega
    have hc : dt[jj]? = some dt[jj] := List.getElem?_eq_getElem hlt
    have hret := retainedFrom_drop rn dt jj dt[jj] hc
    by_cases hskip : (jj : Int) = rn
    · rw [if_pos hskip] at hret
      rw [hret] at hcols
      simp only [asmatrix_character_cols, fillCols, if_pos hskip]
      exact ih (jj + 1) pm v (by omega) hcols
    · rw [if_neg hskip] at hret
      rw [hret] at hcols
      have hty := hcols dt[jj] (List.mem_cons_self _ _)
      have hcols2 : ∀ c ∈ retainedFrom rn (jj + 1) (dt.drop (jj + 1)), TYPEOF c = .STRSXP :=
        fun c hcm => hcols c (List.mem_cons_of_mem _ hcm)
      obtain ⟨d, hd⟩ := TYPEOF_str dt[jj] hty
      simp only [asmatrix_character_cols, fillCols, if_neg hskip, VECTOR_ELT, readAt, hc, hd,
        bind, Except.bind, strCells, asmatrix_character_rows_eq]
      cases fillRows d n.toNat 0 (pm, v) with
      | error e => rfl
      | ok st2 =>
        obtain ⟨pm2, v2⟩ := st2
        simp only [Except.map]
        exact ih (jj + 1) pm2 v2 (by omega) hcols2

theorem asmatrix_character_eq (dt : List SEXP) (matlen n rn : Int)
    (hcols : ∀ c ∈ retained dt rn, TYPEOF c = .STRSXP) :
    asmatrix_character dt matlen n rn = fillRoutine SEXP.str strCells dt matlen n rn := by
  unfold asmatrix_character fillRoutine allocVector
  by_cases hm : matlen < 0
  · simp only [if_pos hm]; rfl
  · have h := asmatrix_character_cols_eq dt n rn dt.length 0 (List.replicate matlen.toNat none) 0
      (by simp) (by simpa [retained] using hcols)
    simp only [if_neg hm, bind, Except.bind, h]
    cases fillCols strCells dt n rn dt.length 0 (List.replicate matlen.toNat none, 0) <;> rfl

theorem asmatrix_list_rows_eq (d pm : List (Option Handle)) (todo ii v : Nat) :
    asmatrix_list_rows (.vec d) todo ii (.vec pm, v)
      = (fillRows d todo ii (pm, v)).map (fun st => (SEXP.vec st.1, st.2)) := by
  induction todo generalizing ii pm v with
  | zero => rfl
  | succ k ih =>
    simp only [asmatrix_list_rows, fillRows, LIST_ELT, SET_VECTOR_ELT, bind, Except.bind]
    cases readAt d ii with
    | error e => rfl
    | ok x =>
      simp only []
      cases writeAt pm v x with
      | error e => rfl
      | ok pm2 => simp only [Except.map, ih]

theorem asmatrix_list_cols_eq (dt : List SEXP) (n rn : Int) (todo jj : Nat)
    (pm : List (Option Handle)) (v : Nat)
    (hjj : jj + todo = dt.length)
    (hcols : ∀ c ∈ retainedFrom rn jj (dt.drop jj), TYPEOF c = .VECSXP) :
    asmatrix_list_cols dt n rn todo jj (.vec pm, v)
      = (fillCols vecCells dt n rn todo jj (pm, v)).map (fun st => (SEXP.vec st.1, st.2)) := by
  induction todo generalizing jj pm v with
  | zero => rfl
  | succ k ih =>
    have hlt : jj < dt.length := by omega
    have hc : dt[jj]? = some dt[jj] := List.getElem?_eq_getElem hlt
    have hret := retainedFrom_drop rn dt jj dt[jj] hc
    by_cases hskip : (jj : Int) = rn
    · rw [if_pos hskip] at hret
      rw [hret] at hcols
      simp only [asmatrix_list_cols, fillCols, if_pos hskip]
      exact ih (jj + 1) pm v (by omega) hcols
    · rw [if_neg hskip] at hret
      rw [hret] at hcols
      have hty := hcols dt[jj] (List.mem_cons_self _ _)
      have hcols2 : ∀ c ∈ retainedFrom rn (jj + 1) (dt.drop (jj + 1)), TYPEOF c = .VECSXP :=
        fun c hcm => hcols c (List.mem_cons_of_mem _ hcm)
      obtain ⟨d, hd⟩ := TYPEOF_vec dt[jj] hty
      simp only [asmatrix_list_cols, fillCols, if_neg hskip, VECTOR_ELT, readAt, hc, hd,
        bind, Except.bind, vecCells, asmatrix_list_rows_eq]
      cases fillRows d n.toNat 0 (pm, v) with
      | error e => rfl
      | ok st2 =>
        obtain ⟨pm2, v2⟩ := st2
        simp only [Except.map]
        exact ih (jj + 1) pm2 v2 (by omega) hcols2

theorem asmatrix_list_eq (dt : List SEXP) (matlen n rn : Int)
    (hcols : ∀ c ∈ retained dt rn, TYPEOF c = .VECSXP) :
    asmatrix_list dt matlen n rn = fillRoutine SEXP.vec vecCells dt matlen n rn := by
  unfold asmatrix_list fillRoutine allocVector
  by_cases hm : matlen < 0
  · simp only [if_pos hm]; rfl
  · have h := asmatrix_list_cols_eq dt n rn dt.length 0 (List.replicate matlen.toNat none) 0
      (by simp) (by simpa [retained] using hcols)
    simp only [if_neg hm, bind, Except.bind, h]
    cases fillCols vecCells dt n rn dt.length 0 (List.replicate matlen.toNat none, 0) <;> rfl

/-! ## What each routine returns -/

theorem asmatrix_logical_ok (dt : List SEXP) (matlen n rn : Int)
    (hm : 0 ≤ matlen)
    (hcols : ∀ c ∈ retained dt rn, TYPEOF c = .LGLSXP ∧ n.toNat ≤ c.len)
    (hroom : n.toNat * (retained dt rn).length ≤ matlen.toNat) :
    ∃ mat, asmatrix_logical dt matlen n rn = .ok mat ∧ TYPEOF mat = .LGLSXP ∧
      mat.cells = packed dt n rn
        ++ List.replicate (matlen.toNat - n.toNat * (retained dt rn).length) none := by
  obtain ⟨d, hd, hcells⟩ := fillRoutine_cells SEXP.lgl LOGICAL Elt.lgl .LGLSXP (fun _ => rfl)
    (fun c hc => by obtain ⟨d, rfl⟩ := TYPEOF_lgl c hc; exact ⟨d, rfl, rfl⟩)
    dt matlen n rn hm hcols hroom
  exact ⟨SEXP.lgl d, by rw [asmatrix_logical_eq dt matlen n rn, hd], rfl, hcells⟩

theorem asmatrix_integer_ok (dt : List SEXP) (matlen n rn : Int)
    (hm : 0 ≤ matlen)
    (hcols : ∀ c ∈ retained dt rn, TYPEOF c = .INTSXP ∧ n.toNat ≤ c.len)
    (hroom : n.toNat * (retained dt rn).length ≤ matlen.toNat) :
    ∃ mat, asmatrix_integer dt matlen n rn = .ok mat ∧ TYPEOF mat = .INTSXP ∧
      mat.cells = packed dt n rn
        ++ List.replicate (matlen.toNat - n.toNat * (retained dt rn).length) none := by
  obtain ⟨d, hd, hcells⟩ := fillRoutine_cells SEXP.int INTEGER Elt.int .INTSXP (fun _ => rfl)
    (fun c hc => by obtain ⟨d, rfl⟩ := TYPEOF_int c hc; exact ⟨d, rfl, rfl⟩)
    dt matlen n rn hm hcols hroom
  exact ⟨SEXP.int d, by rw [asmatrix_integer_eq dt matlen n rn, hd], rfl, hcells⟩

theorem asmatrix_numeric_ok (dt : List SEXP) (matlen n rn : Int)
    (hm : 0 ≤ matlen)
    (hcols : ∀ c ∈ retained dt rn, TYPEOF c = .REALSXP ∧ n.toNat ≤ c.len)
    (hroom : n.toNat * (retained dt rn).length ≤ matlen.toNat) :
    ∃ mat, asmatrix_numeric dt matlen n rn = .ok mat ∧ TYPEOF mat = .REALSXP ∧
      mat.cells = packed dt n rn
        ++ List.replicate (matlen.toNat - n.toNat * (retained dt rn).length) none := by
  obtain ⟨d, hd, hcells⟩ := fillRoutine_cells SEXP.real REAL Elt.real .REALSXP (fun _ => rfl)
    (fun c hc => by obtain ⟨d, rfl⟩ := TYPEOF_real c hc; exact ⟨d, rfl, rfl⟩)
    dt matlen n rn hm hcols hroom
  exact ⟨SEXP.real d, by rw [asmatrix_numeric_eq dt matlen n rn, hd], rfl, hcells⟩

theorem asmatrix_complex_ok (dt : List SEXP) (matlen n rn : Int)
    (hm : 0 ≤ matlen)
    (hcols : ∀ c ∈ retained dt rn, TYPEOF c = .CPLXSXP ∧ n.toNat ≤ c.len)
    (hroom : n.toNat * (retained dt rn).length ≤ matlen.toNat) :
    ∃ mat, asmatrix_complex dt matlen n rn = .ok mat ∧ TYPEOF mat = .CPLXSXP ∧
      mat.cells = packed dt n rn
        ++ List.replicate (matlen.toNat - n.toNat * (retained dt rn).length) none := by
  obtain ⟨d, hd, hcells⟩ := fillRoutine_cells SEXP.cplx COMPLEX Elt.cplx .CPLXSXP (fun _ => rfl)
    (fun c hc => by obtain ⟨d, rfl⟩ := TYPEOF_cplx c hc; exact ⟨d, rfl, rfl⟩)
    dt matlen n rn hm hcols hroom
  exact ⟨SEXP.cplx d, by rw [asmatrix_complex_eq dt matlen n rn, hd], rfl, hcells⟩

theorem asmatrix_character_ok (dt : List SEXP) (matlen n rn : Int)
    (hm : 0 ≤ matlen)
    (hcols : ∀ c ∈ retained dt rn, TYPEOF c = .STRSXP ∧ n.toNat ≤ c.len)
    (hroom : n.toNat * (retained dt rn).length ≤ matlen.toNat) :
    ∃ mat, asmatrix_character dt matlen n rn = .ok mat ∧ TYPEOF mat = .STRSXP ∧
      mat.cells = packed dt n rn
        ++ List.replicate (matlen.toNat - n.toNat * (retained dt rn).length) none := by
  obtain ⟨d, hd, hcells⟩ := fillRoutine_cells SEXP.str strCells Elt.str .STRSXP (fun _ => rfl)
    (fun c hc => by obtain ⟨d, rfl⟩ := TYPEOF_str c hc; exact ⟨d, rfl, rfl⟩)
    dt matlen n rn hm hcols hroom
  exact ⟨SEXP.str d, by rw [asmatrix_character_eq dt matlen n rn (fun c hc => (hcols c hc).1), hd], rfl, hcells⟩

theorem asmatrix_list_ok (dt : List SEXP) (matlen n rn : Int)
    (hm : 0 ≤ matlen)
    (hcols : ∀ c ∈ retained dt rn, TYPEOF c = .VECSXP ∧ n.toNat ≤ c.len)
    (hroom : n.toNat * (retained dt rn).length ≤ matlen.toNat) :
    ∃ mat, asmatrix_list dt matlen n rn = .ok mat ∧ TYPEOF mat = .VECSXP ∧
      mat.cells = packed dt n rn
        ++ List.replicate (matlen.toNat - n.toNat * (retained dt rn).length) none := by
  obtain ⟨d, hd, hcells⟩ := fillRoutine_cells SEXP.vec vecCells Elt.vec .VECSXP (fun _ => rfl)
    (fun c hc => by obtain ⟨d, rfl⟩ := TYPEOF_vec c hc; exact ⟨d, rfl, rfl⟩)
    dt matlen n rn hm hcols hroom
  exact ⟨SEXP.vec d, by rw [asmatrix_list_eq dt matlen n rn (fun c hc => (hcols c hc).1), hd], rfl, hcells⟩

/-! ## What `asmatrix` returns -/

theorem retained_head (dt : List SEXP) (rn : Int) :
    (retained dt rn).head? = dt[if rn = 0 then 1 else 0]? := by
  cases dt with
  | nil => simp [retained, retainedFrom]
  | cons c cs =>
    by_cases h : rn = 0
    · subst h
      cases cs with
      | nil => simp [retained, retainedFrom]
      | cons d ds => simp [retained, retainedFrom]
    · have h2 : ¬ (0 : Int) = rn := fun e => h e.symm
      simp [retained, retainedFrom, h, h2]

/-- The result of `asmatrix` on a call that keeps to the contract of its
caller: a column to detect the type from, of a supported type; every
retained column of that type and with `nrow` cells at least; and a length
`nrow * ncol` that the retained columns fit in. -/
theorem asmatrix_ok (dt : List SEXP) (nrow ncol rownames : Int) (c0 : SEXP)
    (hfirst : (retained dt (wrap32 (rownames - 1))).head? = some c0)
    (hsup : (TYPEOF c0).supported = true)
    (hcols : ∀ c ∈ retained dt (wrap32 (rownames - 1)),
      TYPEOF c = TYPEOF c0 ∧ nrow.toNat ≤ c.len)
    (hm : 0 ≤ wrap32 (nrow * ncol))
    (hroom : nrow.toNat * (retained dt (wrap32 (rownames - 1))).length
      ≤ (wrap32 (nrow * ncol)).toNat) :
    ∃ mat, asmatrix dt nrow ncol rownames = .ok mat ∧ TYPEOF mat = TYPEOF c0 ∧
      mat.cells = packed dt nrow (wrap32 (rownames - 1))
        ++ List.replicate ((wrap32 (nrow * ncol)).toNat
            - nrow.toNat * (retained dt (wrap32 (rownames - 1))).length) none := by
  rw [retained_head] at hfirst
  simp only [asmatrix, VECTOR_ELT, readAt, hfirst, bind, Except.bind]
  cases hT : TYPEOF c0
  case LGLSXP => rw [hT] at hcols; exact asmatrix_logical_ok dt _ nrow _ hm hcols hroom
  case INTSXP => rw [hT] at hcols; exact asmatrix_integer_ok dt _ nrow _ hm hcols hroom
  case REALSXP => rw [hT] at hcols; exact asmatrix_numeric_ok dt _ nrow _ hm hcols hroom
  case CPLXSXP => rw [hT] at hcols; exact asmatrix_complex_ok dt _ nrow _ hm hcols hroom
  case STRSXP => rw [hT] at hcols; exact asmatrix_character_ok dt _ nrow _ hm hcols hroom
  case VECSXP => rw [hT] at hcols; exact asmatrix_list_ok dt _ nrow _ hm hcols hroom
  all_goals (rw [hT] at hsup; exact absurd hsup (by decide))

/-! ## Auxiliary facts: integers, retained columns, indexing -/

theorem wrap32_of_range (x : Int) (h0 : INT_MIN ≤ x) (h1 : x ≤ INT_MAX) : wrap32 x = x := by
  unfold INT_MIN at h0
  unfold INT_MAX at h1
  unfold wrap32
  omega

theorem retainedFrom_none (rn : Int) (jj : Nat) (cs : List SEXP)
    (h : ∀ j : Nat, jj ≤ j → j < jj + cs.length → (j : Int) ≠ rn) :
    retainedFrom rn jj cs = cs := by
  induction cs generalizing jj with
  | nil => rfl
  | cons c cs ih =>
    have h0 : ¬ (jj : Int) = rn := h jj (Nat.le_refl _) (by simp)
    have ih2 := ih (jj + 1) (fun j hj1 hj2 => h j (by omega) (by simp only [List.length_cons]; omega))
    simp only [retainedFrom, if_neg h0, ih2]

theorem retained_none (dt : List SEXP) (rn : Int)
    (h : ∀ j : Nat, j < dt.length → (j : Int) ≠ rn) : retained dt rn = dt :=
  retainedFrom_none rn 0 dt (fun j _ hj => h j (by omega))

theorem retainedFrom_eraseIdx (k jj : Nat) (cs : List SEXP) (h : jj ≤ k) :
    retainedFrom (k : Int) jj cs = cs.eraseIdx (k - jj) := by
  induction cs generalizing jj with
  | nil => rfl
  | cons c cs ih =>
    by_cases hk : jj = k
    · subst hk
      have hnone := retainedFrom_none (jj : Int) (jj + 1) cs (fun j hj1 _ => by omega)
      simp [retainedFrom, hnone]
    · have hne : ¬ ((jj : Int) = (k : Int)) := by omega
      have hsub : k - jj = (k - (jj + 1)) + 1 := by omega
      rw [hsub, List.eraseIdx_cons_succ]
      simp only [retainedFrom, if_neg hne, ih (jj + 1) (by omega)]

theorem retained_eraseIdx (dt : List SEXP) (k : Nat) :
    retained dt (k : Int) = dt.eraseIdx k := by
  simpa using retainedFrom_eraseIdx k 0 dt (Nat.zero_le _)

theorem flatMap_uniform_length {α β : Type} (f : α → List β) (n : Nat) (l : List α)
    (h : ∀ c ∈ l, (f c).length = n) : (l.flatMap f).length = n * l.length := by
  induction l with
  | nil => simp
  | cons c cs ih =>
    have h1 := h c (List.mem_cons_self _ _)
    have h2 := ih (fun c hc => h c (List.mem_cons_of_mem _ hc))
    simp only [List.flatMap_cons, List.length_append, h1, h2, List.length_cons, Nat.mul_succ]
    omega

theorem flatMap_uniform_getElem {α β : Type} (f : α → List β) (n : Nat) (l : List α)
    (h : ∀ c ∈ l, (f c).length = n) (j i : Nat) (c : α) (hj : l[j]? = some c) (hi : i < n) :
    (l.flatMap f)[j * n + i]? = (f c)[i]? := by
  induction l generalizing j with
  | nil => simp at hj
  | cons a as ih =>
    have h1 := h a (List.mem_cons_self _ _)
    cases j with
    | zero =>
      simp only [List.getElem?_cons_zero, Option.some.injEq] at hj
      subst hj
      simp only [List.flatMap_cons, Nat.zero_mul, Nat.zero_add]
      rw [List.getElem?_append_left (by omega)]
    | succ j =>
      simp only [List.getElem?_cons_succ] at hj
      have ih2 := ih (fun c hc => h c (List.mem_cons_of_mem _ hc)) j hj
      simp only [List.flatMap_cons]
      rw [List.getElem?_append_right (by rw [h1, Nat.succ_mul]; omega)]
      have hidx : (j + 1) * n + i - (f a).length = j * n + i := by
        rw [h1, Nat.succ_mul]; omega
      rw [hidx, ih2]

/-- The layout of the result when the retained columns are `p` columns of
`n` cells each, all of the supported type `T`. -/
theorem asmatrix_layout (T : SEXPTYPE) (hT : T.supported = true) (n p : Nat)
    (hp : 1 ≤ p) (hnp : (n : Int) * (p : Int) ≤ INT_MAX)
    (dt : List SEXP) (r : Int)
    (hlen : (retained dt (wrap32 (r - 1))).length = p)
    (hcols : ∀ c ∈ retained dt (wrap32 (r - 1)), TYPEOF c = T ∧ c.len = n) :
    ∃ mat, asmatrix dt n p r = .ok mat ∧ TYPEOF mat = T ∧ mat.len = n * p ∧
      mat.cells = (retained dt (wrap32 (r - 1))).flatMap SEXP.cells ∧
      ∀ j c, (retained dt (wrap32 (r - 1)))[j]? = some c →
        ∀ i, i < n → mat.cells[j * n + i]? = c.cells[i]? := by
  have hnp0 : (0 : Int) ≤ (n : Int) * (p : Int) := by positivity
  have hw : wrap32 ((n : Int) * (p : Int)) = ((n * p : Nat) : Int) := by
    rw [wrap32_of_range _ (by unfold INT_MIN; omega) hnp]; push_cast; rfl
  obtain ⟨c0, hc0⟩ : ∃ c0, (retained dt (wrap32 (r - 1))).head? = some c0 := by
    cases hret : retained dt (wrap32 (r - 1)) with
    | nil => rw [hret] at hlen; simp at hlen; omega
    | cons c cs => exact ⟨c, rfl⟩
  have hc0mem : c0 ∈ retained dt (wrap32 (r - 1)) := List.mem_of_mem_head? hc0
  have hc0T : TYPEOF c0 = T := (hcols c0 hc0mem).1
  obtain ⟨mat, hmat, hty, hcells⟩ := asmatrix_ok dt n p r c0 hc0 (by rw [hc0T]; exact hT)
    (fun c hc => ⟨by rw [hc0T]; exact (hcols c hc).1, by
      rw [Int.toNat_ofNat]; exact Nat.le_of_eq (hcols c hc).2.symm⟩)
    (by rw [hw]; exact Int.ofNat_nonneg _)
    (by rw [hw, Int.toNat_ofNat, Int.toNat_ofNat, hlen])
  have hpk : packed dt (n : Int) (wrap32 (r - 1))
      = (retained dt (wrap32 (r - 1))).flatMap SEXP.cells := by
    unfold packed
    apply List.flatMap_congr
    intro c hc
    have := (hcols c hc).2
    rw [Int.toNat_ofNat, ← this]
    exact List.take_length c.cells
  have hcells2 : mat.cells = (retained dt (wrap32 (r - 1))).flatMap SEXP.cells := by
    rw [hcells, hpk, hw, Int.toNat_ofNat, Int.toNat_ofNat, hlen, Nat.sub_self]
    simp
  have huni : ∀ c ∈ retained dt (wrap32 (r - 1)), (SEXP.cells c).length = n :=
    fun c hc => (hcols c hc).2
  refine ⟨mat, hmat, by rw [hty, hc0T], ?_, hcells2, ?_⟩
  · rw [SEXP.len, hcells2, flatMap_uniform_length SEXP.cells n _ huni, hlen]
  · intro j c hj i hi
    rw [hcells2]
    exact flatMap_uniform_getElem SEXP.cells n _ huni j i c hj hi

/-! ## The loops visit the retained columns, in order -/

theorem fillCols_eq_fillList {α : Type} (get : SEXP → Result (List α)) (dt : List SEXP)
    (n rn : Int) (todo jj : Nat) (st : List α × Nat) (hjj : jj + todo = dt.length) :
    fillCols get dt n rn todo jj st = fillList get n (retainedFrom rn jj (dt.drop jj)) st := by
  induction todo generalizing jj st with
  | zero =>
    rw [retainedFrom_drop_length rn dt jj (by omega)]; rfl
  | succ k ih =>
    have hlt : jj < dt.length := by omega
    have hc : dt[jj]? = some dt[jj] := List.getElem?_eq_getElem hlt
    rw [retainedFrom_drop rn dt jj dt[jj] hc]
    by_cases hskip : (jj : Int) = rn
    · simp only [fillCols, if_pos hskip]
      exact ih (jj + 1) st (by omega)
    · simp only [fillCols, if_neg hskip, VECTOR_ELT, readAt, hc, fillList, bind, Except.bind]
      cases get dt[jj] with
      | error e => rfl
      | ok pcol =>
        simp only []
        cases fillRows pcol n.toNat 0 st with
        | error e => rfl
        | ok st2 => exact ih (jj + 1) st2 (by omega)

theorem asmatrix_character_cols_eq_list (dt : List SEXP) (n rn : Int) (todo jj : Nat)
    (st : SEXP × Nat) (hjj : jj + todo = dt.length) :
    asmatrix_character_cols dt n rn todo jj st
      = characterList n (retainedFrom rn jj (dt.drop jj)) st := by
  induction todo generalizing jj st with
  | zero =>
    rw [retainedFrom_drop_length rn dt jj (by omega)]; rfl
  | succ k ih =>
    have hlt : jj < dt.length := by omega
    have hc : dt[jj]? = some dt[jj] := List.getElem?_eq_getElem hlt
    rw [retainedFrom_drop rn dt jj dt[jj] hc]
    by_cases hskip : (jj : Int) = rn
    · simp only [asmatrix_character_cols, if_pos hskip]
      exact ih (jj + 1) st (by omega)
    · simp only [asmatrix_character_cols, if_neg hskip, VECTOR_ELT, readAt, hc, characterList,
        bind, Except.bind]
      cases asmatrix_character_rows dt[jj] n.toNat 0 st with
      | error e => rfl
      | ok st2 => exact ih (jj + 1) st2 (by omega)

theorem asmatrix_list_cols_eq_list (dt : List SEXP) (n rn : Int) (todo jj : Nat)
    (st : SEXP × Nat) (hjj : jj + todo = dt.length) :
    asmatrix_list_cols dt n rn todo jj st
      = listList n (retainedFrom rn jj (dt.drop jj)) st := by
  induction todo generalizing jj st with
  | zero =>
    rw [retainedFrom_drop_length rn dt jj (by omega)]; rfl
  | succ k ih =>
    have hlt : jj < dt.length := by omega
    have hc : dt[jj]? = some dt[jj] := List.getElem?_eq_getElem hlt
    rw [retainedFrom_drop rn dt jj dt[jj] hc]
    by_cases hskip : (jj : Int) = rn
    · simp only [asmatrix_list_cols, if_pos hskip]
      exact ih (jj + 1) st (by omega)
    · simp only [asmatrix_list_cols, if_neg hskip, VECTOR_ELT, readAt, hc, listList,
        bind, Except.bind]
      cases asmatrix_list_rows dt[jj] n.toNat 0 st with
      | error e => rfl
      | ok st2 => exact ih (jj + 1) st2 (by omega)

theorem retained_retained (dt : List SEXP) (rn : Int) :
    retained (retained dt rn) (-1) = retained dt rn :=
  retained_none _ _ (fun j _ => by omega)

theorem fillRoutine_retained {α : Type} (mk : List (Option α) → SEXP)
    (get : SEXP → Result (List (Option α))) (dt : List SEXP) (matlen n rn : Int) :
    fillRoutine mk get dt matlen n rn = fillRoutine mk get (retained dt rn) matlen n (-1) := by
  unfold fillRoutine
  rw [fillCols_eq_fillList get dt n rn dt.length 0 _ (by simp),
    fillCols_eq_fillList get (retained dt rn) n (-1) (retained dt rn).length 0 _ (by simp)]
  have h := retained_retained dt rn
  simp only [retained, List.drop_zero] at h ⊢
  rw [h]

theorem asmatrix_character_retained (dt : List SEXP) (matlen n rn : Int) :
    asmatrix_character dt matlen n rn = asmatrix_character (retained dt rn) matlen n (-1) := by
  unfold asmatrix_character
  have h := retained_retained dt rn
  simp only [asmatrix_character_cols_eq_list dt n rn dt.length 0 _ (by simp),
    asmatrix_character_cols_eq_list (retained dt rn) n (-1) (retained dt rn).length 0 _ (by simp)]
  simp only [retained, List.drop_zero] at h ⊢
  rw [h]

theorem asmatrix_list_retained (dt : List SEXP) (matlen n rn : Int) :
    asmatrix_list dt matlen n rn = asmatrix_list (retained dt rn) matlen n (-1) := by
  unfold asmatrix_list
  have h := retained_retained dt rn
  simp only [asmatrix_list_cols_eq_list dt n rn dt.length 0 _ (by simp),
    asmatrix_list_cols_eq_list (retained dt rn) n (-1) (retained dt rn).length 0 _ (by simp)]
  simp only [retained, List.drop_zero] at h ⊢
  rw [h]

/-- A call of `asmatrix` sees the collection and `rownames` only through
the retained columns. -/
theorem asmatrix_retained (dt : List SEXP) (nrow ncol rownames : Int) :
    asmatrix dt nrow ncol rownames
      = asmatrix (retained dt (wrap32 (rownames - 1))) nrow ncol 0 := by
  have hw : wrap32 (0 - 1) = -1 := by decide
  have hfc : dt[if wrap32 (rownames - 1) = 0 then 1 else 0]?
      = (retained dt (wrap32 (rownames - 1)))[0]? := by
    rw [← retained_head, List.head?_eq_getElem?]
  have hne : ¬ ((-1 : Int) = 0) := by decide
  simp only [asmatrix, VECTOR_ELT, readAt, hw, hfc, if_neg hne, bind, Except.bind]
  cases (retained dt (wrap32 (rownames - 1)))[0]? with
  | none => rfl
  | some c0 =>
    simp only []
    cases TYPEOF c0 <;>
      first
      | rfl
      | (simp only [asmatrix_logical_eq]; exact fillRoutine_retained _ _ _ _ _ _)
      | (simp only [asmatrix_integer_eq]; exact fillRoutine_retained _ _ _ _ _ _)
      | (simp only [asmatrix_numeric_eq]; exact fillRoutine_retained _ _ _ _ _ _)
      | (simp only [asmatrix_complex_eq]; exact fillRoutine_retained _ _ _ _ _ _)
      | exact asmatrix_character_retained _ _ _ _
      | exact asmatrix_list_retained _ _ _ _

/-! ## Invariants of the loops: buffer length, buffer type, kinds of fault -/

theorem goodRes_bind {σ τ : Type} (P : σ → Prop) (Q : τ → Prop) (x : Result σ)
    (f : σ → Result τ) (hx : goodRes P x) (hf : ∀ s, P s → goodRes Q (f s)) :
    goodRes Q (x >>= f) := by
  cases x with
  | error e => exact hx
  | ok s => exact hf s hx

theorem readAt_good {α : Type} (p : List α) (i : Nat) : goodRes (fun _ => True) (readAt p i) := by
  unfold readAt
  cases p[i]? <;> simp [goodRes, Fault.isUnsupported]

theorem writeAt_good {α : Type} (p : List α) (i : Nat) (x : α) :
    goodRes (fun q => q.length = p.length) (writeAt p i x) := by
  unfold writeAt
  by_cases h : i < p.length <;> simp [h, goodRes, Fault.isUnsupported]

theorem fillRows_good {α : Type} (pcol : List α) (todo ii : Nat) (st : List α × Nat) :
    goodRes (fun st2 => st2.1.length = st.1.length) (fillRows pcol todo ii st) := by
  induction todo generalizing ii st with
  | zero => simp [fillRows, goodRes]
  | succ k ih =>
    obtain ⟨pmat, v⟩ := st
    simp only [fillRows]
    refine goodRes_bind (fun _ => True) _ _ _ (readAt_good pcol ii) (fun x _ => ?_)
    refine goodRes_bind (fun q => q.length = pmat.length) _ _ _ (writeAt_good pmat v x) ?_
    intro q hq
    have := ih (ii + 1) (q, v + 1)
    simpa [hq] using this

theorem fillList_good {α : Type} (get : SEXP → Result (List α))
    (hget : ∀ c, goodRes (fun _ => True) (get c)) (n : Int) (cols : List SEXP)
    (st : List α × Nat) :
    goodRes (fun st2 => st2.1.length = st.1.length) (fillList get n cols st) := by
  induction cols generalizing st with
  | nil => simp [fillList, goodRes]
  | cons c cs ih =>
    simp only [fillList]
    refine goodRes_bind (fun _ => True) _ _ _ (hget c) (fun pcol _ => ?_)
    refine goodRes_bind (fun st2 => st2.1.length = st.1.length) _ _ _
      (fillRows_good pcol n.toNat 0 st) ?_
    intro st2 h2
    have := ih st2
    simpa [h2] using this

theorem fillRoutine_good {α : Type} (mk : List (Option α) → SEXP)
    (get : SEXP → Result (List (Option α))) (hget : ∀ c, goodRes (fun _ => True) (get c))
    (dt : List SEXP) (matlen n rn : Int) :
    goodRes (fun mat => 0 ≤ matlen ∧ ∃ d, mat = mk d ∧ d.length = matlen.toNat)
      (fillRoutine mk get dt matlen n rn) := by
  unfold fillRoutine
  by_cases hm : matlen < 0
  · simp [hm, goodRes, Fault.isUnsupported]
  · rw [if_neg hm, fillCols_eq_fillList get dt n rn dt.length 0 _ (by simp)]
    have h := fillList_good get hget n (retainedFrom rn 0 (dt.drop 0))
      (List.replicate matlen.toNat none, 0)
    cases hres : fillList get n (retainedFrom rn 0 (dt.drop 0))
        (List.replicate matlen.toNat none, 0) with
    | error e => rw [hres] at h; exact h
    | ok st2 =>
      rw [hres] at h
      simp only [goodRes, List.length_replicate] at h ⊢
      exact ⟨by omega, st2.1, rfl, h⟩

theorem LOGICAL_good (c : SEXP) : goodRes (fun _ => True) (LOGICAL c) := by
  cases c <;> simp [LOGICAL, goodRes, Fault.isUnsupported]

theorem INTEGER_good (c : SEXP) : goodRes (fun _ => True) (INTEGER c) := by
  cases c <;> simp [INTEGER, goodRes, Fault.isUnsupported]

theorem REAL_good (c : SEXP) : goodRes (fun _ => True) (REAL c) := by
  cases c <;> simp [REAL, goodRes, Fault.isUnsupported]

theorem COMPLEX_good (c : SEXP) : goodRes (fun _ => True) (COMPLEX c) := by
  cases c <;> simp [COMPLEX, goodRes, Fault.isUnsupported]

theorem asmatrix_logical_good (dt : List SEXP) (matlen n rn : Int) :
    goodRes (fun mat => 0 ≤ matlen ∧ mat.len = matlen.toNat ∧ TYPEOF mat = .LGLSXP)
      (asmatrix_logical dt matlen n rn) := by
  rw [asmatrix_logical_eq]
  have h := fillRoutine_good SEXP.lgl LOGICAL LOGICAL_good dt matlen n rn
  cases hres : fillRoutine SEXP.lgl LOGICAL dt matlen n rn with
  | error e => rw [hres] at h; exact h
  | ok mat =>
    rw [hres] at h
    obtain ⟨h0, d, rfl, hd⟩ := h
    exact ⟨h0, by simpa [SEXP.len, SEXP.cells] using hd, rfl⟩

theorem asmatrix_integer_good (dt : List SEXP) (matlen n rn : Int) :
    goodRes (fun mat => 0 ≤ matlen ∧ mat.len = matlen.toNat ∧ TYPEOF mat = .INTSXP)
      (asmatrix_integer dt matlen n rn) := by
  rw [asmatrix_integer_eq]
  have h := fillRoutine_good SEXP.int INTEGER INTEGER_good dt matlen n rn
  cases hres : fillRoutine SEXP.int INTEGER dt matlen n rn with
  | error e => rw [hres] at h; exact h
  | ok mat =>
    rw [hres] at h
    obtain ⟨h0, d, rfl, hd⟩ := h
    exact ⟨h0, by simpa [SEXP.len, SEXP.cells] using hd, rfl⟩

theorem asmatrix_numeric_good (dt : List SEXP) (matlen n rn : Int) :
    goodRes (fun mat => 0 ≤ matlen ∧ mat.len = matlen.toNat ∧ TYPEOF mat = .REALSXP)
      (asmatrix_numeric dt matlen n rn) := by
  rw [asmatrix_numeric_eq]
  have h := fillRoutine_good SEXP.real REAL REAL_good dt matlen n rn
  cases hres : fillRoutine SEXP.real REAL dt matlen n rn with
  | error e => rw [hres] at h; exact h
  | ok mat =>
    rw [hres] at h
    obtain ⟨h0, d, rfl, hd⟩ := h
    exact ⟨h0, by simpa [SEXP.len, SEXP.cells] using hd, rfl⟩

theorem asmatrix_complex_good (dt : List SEXP) (matlen n rn : Int) :
    goodRes (fun mat => 0 ≤ matlen ∧ mat.len = matlen.toNat ∧ TYPEOF mat = .CPLXSXP)
      (asmatrix_complex dt matlen n rn) := by
  rw [asmatrix_complex_eq]
  have h := fillRoutine_good SEXP.cplx COMPLEX COMPLEX_good dt matlen n rn
  cases hres : fillRoutine SEXP.cplx COMPLEX dt matlen n rn with
  | error e => rw [hres] at h; exact h
  | ok mat =>
    rw [hres] at h
    obtain ⟨h0, d, rfl, hd⟩ := h
    exact ⟨h0, by simpa [SEXP.len, SEXP.cells] using hd, rfl⟩

theorem STRING_ELT_good (x : SEXP) (i : Nat) : goodRes (fun _ => True) (STRING_ELT x i) := by
  cases x <;> simp only [STRING_ELT, goodRes, Fault.isUnsupported]
  exact readAt_good _ i

theorem SET_STRING_ELT_good (x : SEXP) (i : Nat) (v : Option Handle) :
    goodRes (fun y => y.len = x.len ∧ TYPEOF y = TYPEOF x) (SET_STRING_ELT x i v) := by
  cases x <;> simp only [SET_STRING_ELT, goodRes, Fault.isUnsupported]
  rename_i d
  have h := writeAt_good d i v
  cases hw : writeAt d i v with
  | error e => rw [hw] at h; exact h
  | ok q =>
    rw [hw] at h
    simp only [goodRes] at h
    simp [Except.map, goodRes, SEXP.len, SEXP.cells, TYPEOF, h]

theorem asmatrix_character_rows_good (pcol : SEXP) (todo ii : Nat) (st : SEXP × Nat) :
    goodRes (fun st2 => st2.1.len = st.1.len ∧ TYPEOF st2.1 = TYPEOF st.1)
      (asmatrix_character_rows pcol todo ii st) := by
  induction todo generalizing ii st with
  | zero => simp [asmatrix_character_rows, goodRes]
  | succ k ih =>
    obtain ⟨mat, v⟩ := st
    simp only [asmatrix_character_rows]
    refine goodRes_bind (fun _ => True) _ _ _ (STRING_ELT_good pcol ii) (fun x _ => ?_)
    refine goodRes_bind (fun y => y.len = mat.len ∧ TYPEOF y = TYPEOF mat) _ _ _
      (SET_STRING_ELT_good mat v x) ?_
    intro q hq
    have := ih (ii + 1) (q, v + 1)
    simpa [hq.1, hq.2] using this

theorem characterList_good (n : Int) (cols : List SEXP) (st : SEXP × Nat) :
    goodRes (fun st2 => st2.1.len = st.1.len ∧ TYPEOF st2.1 = TYPEOF st.1)
      (characterList n cols st) := by
  induction cols generalizing st with
  | nil => simp [characterList, goodRes]
  | cons c cs ih =>
    simp only [characterList]
    refine goodRes_bind (fun st2 => st2.1.len = st.1.len ∧ TYPEOF st2.1 = TYPEOF st.1) _ _ _
      (asmatrix_character_rows_good c n.toNat 0 st) ?_
    intro st2 h2
    have := ih st2
    simpa [h2.1, h2.2] using this

theorem asmatrix_character_good (dt : List SEXP) (matlen n rn : Int) :
    goodRes (fun mat => 0 ≤ matlen ∧ mat.len = matlen.toNat ∧ TYPEOF mat = .STRSXP)
      (asmatrix_character dt matlen n rn) := by
  unfold asmatrix_character allocVector
  by_cases hm : matlen < 0
  · simp [hm, goodRes, Fault.isUnsupported, bind, Except.bind]
  · simp only [if_neg hm, bind, Except.bind,
      asmatrix_character_cols_eq_list dt n rn dt.length 0 _ (by simp)]
    have h := characterList_good n (retainedFrom rn 0 (dt.drop 0))
      (SEXP.str (List.replicate matlen.toNat none), 0)
    cases hres : characterList n (retainedFrom rn 0 (dt.drop 0))
        (SEXP.str (List.replicate matlen.toNat none), 0) with
    | error e => rw [hres] at h; exact h
    | ok st2 =>
      rw [hres] at h
      obtain ⟨mat, v⟩ := st2
      simp only [goodRes, SEXP.len, SEXP.cells, List.length_map, List.length_replicate,
        TYPEOF] at h ⊢
      exact ⟨by omega, h.1, h.2⟩

theorem LIST_ELT_good (x : SEXP) (i : Nat) : goodRes (fun _ => True) (LIST_ELT x i) := by
  cases x <;> simp only [LIST_ELT, goodRes, Fault.isUnsupported]
  exact readAt_good _ i

theorem SET_VECTOR_ELT_good (x : SEXP) (i : Nat) (v : Option Handle) :
    goodRes (fun y => y.len = x.len ∧ TYPEOF y = TYPEOF x) (SET_VECTOR_ELT x i v) := by
  cases x <;> simp only [SET_VECTOR_ELT, goodRes, Fault.isUnsupported]
  rename_i d
  have h := writeAt_good d i v
  cases hw : writeAt d i v with
  | error e => rw [hw] at h; exact h
  | ok q =>
    rw [hw] at h
    simp only [goodRes] at h
    simp [Except.map, goodRes, SEXP.len, SEXP.cells, TYPEOF, h]

theorem asmatrix_list_rows_good (pcol : SEXP) (todo ii : Nat) (st : SEXP × Nat) :
    goodRes (fun st2 => st2.1.len = st.1.len ∧ TYPEOF st2.1 = TYPEOF st.1)
      (asmatrix_list_rows pcol todo ii st) := by
  induction todo generalizing ii st with
  | zero => simp [asmatrix_list_rows, goodRes]
  | succ k ih =>
    obtain ⟨mat, v⟩ := st
    simp only [asmatrix_list_rows]
    refine goodRes_bind (fun _ => True) _ _ _ (LIST_ELT_good pcol ii) (fun x _ => ?_)
    refine goodRes_bind (fun y => y.len = mat.len ∧ TYPEOF y = TYPEOF mat) _ _ _
      (SET_VECTOR_ELT_good mat v x) ?_
    intro q hq
    have := ih (ii + 1) (q, v + 1)
    simpa [hq.1, hq.2] using this

theorem listList_good (n : Int) (cols : List SEXP) (st : SEXP × Nat) :
    goodRes (fun st2 => st2.1.len = st.1.len ∧ TYPEOF st2.1 = TYPEOF st.1)
      (listList n cols st) := by
  induction cols generalizing st with
  | nil => simp [listList, goodRes]
  | cons c cs ih =>
    simp only [listList]
    refine goodRes_bind (fun st2 => st2.1.len = st.1.len ∧ TYPEOF st2.1 = TYPEOF st.1) _ _ _
      (asmatrix_list_rows_good c n.toNat 0 st) ?_
    intro st2 h2
    have := ih st2
    simpa [h2.1, h2.2] using this

theorem asmatrix_list_good (dt : List SEXP) (matlen n rn : Int) :
    goodRes (fun mat => 0 ≤ matlen ∧ mat.len = matlen.toNat ∧ TYPEOF mat = .VECSXP)
      (asmatrix_list dt matlen n rn) := by
  unfold asmatrix_list allocVector
  by_cases hm : matlen < 0
  · simp [hm, goodRes, Fault.isUnsupported, bind, Except.bind]
  · simp only [if_neg hm, bind, Except.bind,
      asmatrix_list_cols_eq_list dt n rn dt.length 0 _ (by simp)]
    have h := listList_good n (retainedFrom rn 0 (dt.drop 0))
      (SEXP.vec (List.replicate matlen.toNat none), 0)
    cases hres : listList n (retainedFrom rn 0 (dt.drop 0))
        (SEXP.vec (List.replicate matlen.toNat none), 0) with
    | error e => rw [hres] at h; exact h
    | ok st2 =>
      rw [hres] at h
      obtain ⟨mat, v⟩ := st2
      simp only [goodRes, SEXP.len, SEXP.cells, List.length_map, List.length_replicate,
        TYPEOF] at h ⊢
      exact ⟨by omega, h.1, h.2⟩

theorem routines_good (T : SEXPTYPE) (f : List SEXP → Int → Int → Int → Result SEXP)
    (hf : (T, f) ∈ routines) (dt : List SEXP) (matlen n rn : Int) :
    goodRes (fun mat => 0 ≤ matlen ∧ mat.len = matlen.toNat ∧ TYPEOF mat = T)
      (f dt matlen n rn) := by
  simp only [routines, List.mem_cons, Prod.mk.injEq, List.mem_singleton, List.not_mem_nil,
    or_false] at hf
  rcases hf with ⟨rfl, rfl⟩ | ⟨rfl, rfl⟩ | ⟨rfl, rfl⟩ | ⟨rfl, rfl⟩ | ⟨rfl, rfl⟩ | ⟨rfl, rfl⟩
  · exact asmatrix_logical_good dt matlen n rn
  · exact asmatrix_integer_good dt matlen n rn
  · exact asmatrix_numeric_good dt matlen n rn
  · exact asmatrix_complex_good dt matlen n rn
  · exact asmatrix_character_good dt matlen n rn
  · exact asmatrix_list_good dt matlen n rn

theorem routines_ok (T : SEXPTYPE) (f : List SEXP → Int → Int → Int → Result SEXP)
    (hf : (T, f) ∈ routines) (dt : List SEXP) (matlen n rn : Int)
    (hm : 0 ≤ matlen)
    (hcols : ∀ c ∈ retained dt rn, TYPEOF c = T ∧ n.toNat ≤ c.len)
    (hroom : n.toNat * (retained dt rn).length ≤ matlen.toNat) :
    ∃ mat, f dt matlen n rn = .ok mat ∧ TYPEOF mat = T ∧
      mat.cells = packed dt n rn
        ++ List.replicate (matlen.toNat - n.toNat * (retained dt rn).length) none := by
  simp only [routines, List.mem_cons, Prod.mk.injEq, List.mem_singleton, List.not_mem_nil,
    or_false] at hf
  rcases hf with ⟨rfl, rfl⟩ | ⟨rfl, rfl⟩ | ⟨rfl, rfl⟩ | ⟨rfl, rfl⟩ | ⟨rfl, rfl⟩ | ⟨rfl, rfl⟩
  · exact asmatrix_logical_ok dt matlen n rn hm hcols hroom
  · exact asmatrix_integer_ok dt matlen n rn hm hcols hroom
  · exact asmatrix_numeric_ok dt matlen n rn hm hcols hroom
  · exact asmatrix_complex_ok dt matlen n rn hm hcols hroom
  · exact asmatrix_character_ok dt matlen n rn hm hcols hroom
  · exact asmatrix_list_ok dt matlen n rn hm hcols hroom

/-- A call of `asmatrix` either raises the error of line 162 or calls the routine of
the type of column `firstcol`, with `matlen = n * p` and
`rncolnum = rownames - 1` in `int` arithmetic. -/
theorem asmatrix_dispatch (dt : List SEXP) (nrow ncol rownames : Int) (c : SEXP)
    (hc : dt[if wrap32 (rownames - 1) = 0 then 1 else 0]? = some c) :
    ((TYPEOF c).supported = false ∧
      asmatrix dt nrow ncol rownames = .error (.unsupportedType (TYPEOF c))) ∨
    ((TYPEOF c).supported = true ∧ ∃ f, (TYPEOF c, f) ∈ routines ∧
      asmatrix dt nrow ncol rownames
        = f dt (wrap32 (nrow * ncol)) nrow (wrap32 (rownames - 1))) := by
  simp only [asmatrix, VECTOR_ELT, readAt, hc, bind, Except.bind]
  cases hT : TYPEOF c
  case LGLSXP => exact Or.inr ⟨rfl, asmatrix_logical, by simp [routines], rfl⟩
  case INTSXP => exact Or.inr ⟨rfl, asmatrix_integer, by simp [routines], rfl⟩
  case REALSXP => exact Or.inr ⟨rfl, asmatrix_numeric, by simp [routines], rfl⟩
  case CPLXSXP => exact Or.inr ⟨rfl, asmatrix_complex, by simp [routines], rfl⟩
  case STRSXP => exact Or.inr ⟨rfl, asmatrix_character, by simp [routines], rfl⟩
  case VECSXP => exact Or.inr ⟨rfl, asmatrix_list, by simp [routines], rfl⟩
  all_goals exact Or.inl ⟨rfl, rfl⟩

theorem asmatrix_no_column (dt : List SEXP) (nrow ncol rownames : Int)
    (hc : dt[if wrap32 (rownames - 1) = 0 then 1 else 0]? = none) :
    asmatrix dt nrow ncol rownames = .error .outOfRange := by
  simp only [asmatrix, VECTOR_ELT, readAt, hc, bind, Except.bind]

/-- What is known of a call of `asmatrix` that returns a buffer. -/
theorem asmatrix_returns (dt : List SEXP) (nrow ncol rownames : Int) (mat : SEXP)
    (h : asmatrix dt nrow ncol rownames = .ok mat) :
    ∃ c, dt[if wrap32 (rownames - 1) = 0 then 1 else 0]? = some c ∧
      (TYPEOF c).supported = true ∧ TYPEOF mat = TYPEOF c ∧
      0 ≤ wrap32 (nrow * ncol) ∧ mat.len = (wrap32 (nrow * ncol)).toNat := by
  cases hc : dt[if wrap32 (rownames - 1) = 0 then 1 else 0]? with
  | none => rw [asmatrix_no_column dt nrow ncol rownames hc] at h; cases h
  | some c =>
    rcases asmatrix_dispatch dt nrow ncol rownames c hc with ⟨_, he⟩ | ⟨hs, f, hf, he⟩
    · rw [he] at h; cases h
    · have hg := routines_good _ f hf dt (wrap32 (nrow * ncol)) nrow (wrap32 (rownames - 1))
      rw [← he, h] at hg
      exact ⟨c, rfl, hs, hg.2.2, hg.1, hg.2.1⟩

/-- The error of line 162 is raised exactly on an unsupported type of
column `firstcol`. -/
theorem asmatrix_unsupported_iff (dt : List SEXP) (nrow ncol rownames : Int) (t : SEXPTYPE) :
    asmatrix dt nrow ncol rownames = .error (.unsupportedType t) ↔
      ∃ c, (retained dt (wrap32 (rownames - 1))).head? = some c ∧ TYPEOF c = t ∧
        t.supported = false := by
  rw [retained_head]
  cases hc : dt[if wrap32 (rownames - 1) = 0 then 1 else 0]? with
  | none =>
    rw [asmatrix_no_column dt nrow ncol rownames hc]
    constructor
    · intro h; cases h
    · rintro ⟨c, h, _⟩; cases h
  | some c =>
    rcases asmatrix_dispatch dt nrow ncol rownames c hc with ⟨hs, he⟩ | ⟨hs, f, hf, he⟩
    · rw [he]
      constructor
      · intro h
        injection h with h
        injection h with h
        exact ⟨c, rfl, h, by rw [← h]; exact hs⟩
      · rintro ⟨c2, h2, h3, _⟩
        injection h2 with h2
        rw [← h3, h2]
    · have hg := routines_good _ f hf dt (wrap32 (nrow * ncol)) nrow (wrap32 (rownames - 1))
      rw [← he] at hg
      constructor
      · intro h
        rw [h] at hg
        simp [goodRes, Fault.isUnsupported] at hg
      · rintro ⟨c2, h2, h3, h4⟩
        injection h2 with h2
        rw [← h3, ← h2, hs] at h4
        cases h4

theorem packed_length (dt : List SEXP) (n rn : Int)
    (hcols : ∀ c ∈ retained dt rn, n.toNat ≤ c.len) :
    (packed dt n rn).length = n.toNat * (retained dt rn).length := by
  unfold packed
  apply flatMap_uniform_length
  intro c hc
  have := hcols c hc
  rw [List.length_take]
  exact Nat.min_eq_left this

theorem len_lgl_replicate (n : Nat) : (SEXP.lgl (List.replicate n none)).len = n := by
  simp [SEXP.len, SEXP.cells]

/-! ## C1: column-major layout, no column excluded -/

/-- C1, as stated, fails at two inputs: with `p = 0` the collection is empty
and the type lookup `VECTOR_ELT(dt, 0)` is outside it; with two columns of
`2147483647` cells each, `n * p` does not fit the `int` `matlen`, and no
buffer of `n * p` cells is returned. -/
theorem C1_counterexample :
    asmatrix [] 0 0 0 = .error .outOfRange ∧
    (SEXP.lgl (List.replicate 2147483647 none)).len = 2147483647 ∧
    asmatrix [.lgl (List.replicate 2147483647 none), .lgl (List.replicate 2147483647 none)]
      2147483647 2 0 = .error .badAlloc :=
  ⟨by decide, len_lgl_replicate 2147483647, by rfl⟩

/-- C1 (amended): for every supported type `T`, every `n ≥ 0` and `p ≥ 1`
with `n * p ≤ INT_MAX`, and every collection of exactly `p` columns of type
`T` with exactly `n` cells each, `asmatrix` called with `nrow = n`,
`ncol = p` and a `rownames` that excludes no column returns a buffer of type
`T` and of length `n * p` whose cell at index `j * n + i` is cell `i` of
column `j`. -/
theorem C1_column_major_layout (T : SEXPTYPE) (hT : T.supported = true) (n p : Nat)
    (hp : 1 ≤ p) (hnp : (n : Int) * (p : Int) ≤ INT_MAX)
    (dt : List SEXP) (hlen : dt.length = p)
    (hcols : ∀ c ∈ dt, TYPEOF c = T ∧ c.len = n)
    (r : Int) (hr : ∀ j : Nat, j < p → (j : Int) ≠ wrap32 (r - 1)) :
    ∃ mat, asmatrix dt n p r = .ok mat ∧ TYPEOF mat = T ∧ mat.len = n * p ∧
      ∀ j c, dt[j]? = some c → ∀ i, i < n → mat.cells[j * n + i]? = c.cells[i]? := by
  have hret : retained dt (wrap32 (r - 1)) = dt :=
    retained_none dt _ (by rw [hlen]; exact hr)
  obtain ⟨mat, h1, h2, h3, _, h5⟩ := asmatrix_layout T hT n p hp hnp dt r
    (by rw [hret]; exact hlen) (by rw [hret]; exact hcols)
  rw [hret] at h5
  exact ⟨mat, h1, h2, h3, h5⟩

/-- C1 (amended), at two integer columns of two cells. -/
theorem C1_column_major_layout_witness :
    ∃ mat, asmatrix [.int [some 1, some 2], .int [some 3, some 4]] (2 : Nat) (2 : Nat) 0 = .ok mat ∧
      TYPEOF mat = .INTSXP ∧ mat.len = 2 * 2 ∧
      ∀ j c, [SEXP.int [some 1, some 2], SEXP.int [some 3, some 4]][j]? = some c →
        ∀ i, i < 2 → mat.cells[j * 2 + i]? = c.cells[i]? :=
  C1_column_major_layout .INTSXP rfl 2 2 (by decide) (by decide)
    [.int [some 1, some 2], .int [some 3, some 4]] rfl (by decide) 0 (by decide)

/-! ## C2: one column excluded -/

/-- C2, as stated, fails where `n * (p - 1)` does not fit the `int`
`matlen`: three columns of `2147483647` cells each, the first excluded. -/
theorem C2_counterexample :
    (SEXP.lgl (List.replicate 2147483647 none)).len = 2147483647 ∧
    asmatrix [.lgl (List.replicate 2147483647 none), .lgl (List.replicate 2147483647 none),
        .lgl (List.replicate 2147483647 none)] 2147483647 (3 - 1) (0 + 1)
      = .error .badAlloc :=
  ⟨len_lgl_replicate 2147483647, by rfl⟩

/-- C2 (amended): for every collection of `p ≥ 2` columns of one supported
type `T`, each with `n` cells, with `n * (p - 1) ≤ INT_MAX`, and every
0-based index `k < p` (with `rownames = k + 1` an `int`), `asmatrix` called
with `rownames = k + 1` and `ncol = p - 1` returns a buffer of length
`n * (p - 1)` that is the concatenation of the columns other than `k`, in
their order: the cell at index `j * n + i` is cell `i` of column `j` when
`j < k` and of column `j + 1` when `k ≤ j < p - 1`. -/
theorem C2_exclude_one_column (T : SEXPTYPE) (hT : T.supported = true) (n p k : Nat)
    (hp : 2 ≤ p) (hk : k < p) (hk32 : (k : Int) + 1 ≤ INT_MAX)
    (hnp : (n : Int) * ((p : Int) - 1) ≤ INT_MAX)
    (dt : List SEXP) (hlen : dt.length = p)
    (hcols : ∀ c ∈ dt, TYPEOF c = T ∧ c.len = n) :
    ∃ mat, asmatrix dt n ((p : Int) - 1) ((k : Int) + 1) = .ok mat ∧ TYPEOF mat = T ∧
      mat.len = n * (p - 1) ∧
      mat.cells = (dt.eraseIdx k).flatMap SEXP.cells ∧
      ∀ j c, j < p - 1 → dt[if j < k then j else j + 1]? = some c →
        ∀ i, i < n → mat.cells[j * n + i]? = c.cells[i]? := by
  have hrn : wrap32 ((k : Int) + 1 - 1) = (k : Int) := by
    rw [Int.add_sub_cancel]
    exact wrap32_of_range _ (by unfold INT_MIN; omega) (by omega)
  have hret : retained dt (wrap32 ((k : Int) + 1 - 1)) = dt.eraseIdx k := by
    rw [hrn]; exact retained_eraseIdx dt k
  have hcast : ((p - 1 : Nat) : Int) = (p : Int) - 1 := by omega
  have hmem : ∀ c ∈ dt.eraseIdx k, TYPEOF c = T ∧ c.len = n :=
    fun c hc => hcols c (List.mem_of_mem_eraseIdx hc)
  obtain ⟨mat, h1, h2, h3, h4, h5⟩ := asmatrix_layout T hT n (p - 1) (by omega)
    (by rw [hcast]; exact hnp) dt ((k : Int) + 1)
    (by rw [hret, List.length_eraseIdx, if_pos (by omega), hlen])
    (by rw [hret]; exact hmem)
  rw [hcast] at h1
  rw [hret] at h4 h5
  refine ⟨mat, h1, h2, h3, h4, ?_⟩
  intro j c _ hc i hi
  apply h5 j c _ i hi
  rw [List.getElem?_eraseIdx]
  by_cases hjk : j < k
  · rw [if_pos hjk] at hc ⊢; exact hc
  · rw [if_neg hjk] at hc ⊢; exact hc

/-- C2 (amended), at three integer columns of two cells, the middle one
excluded. -/
theorem C2_exclude_one_column_witness :
    ∃ mat, asmatrix [.int [some 10, some 20], .int [some 99, some 99], .int [some 30, some 40]]
        (2 : Nat) (((3 : Nat) : Int) - 1) (((1 : Nat) : Int) + 1) = .ok mat ∧
      TYPEOF mat = .INTSXP ∧ mat.len = 2 * (3 - 1) ∧
      mat.cells = (List.eraseIdx [SEXP.int [some 10, some 20], SEXP.int [some 99, some 99],
        SEXP.int [some 30, some 40]] 1).flatMap SEXP.cells ∧
      ∀ j c, j < 3 - 1 → [SEXP.int [some 10, some 20], SEXP.int [some 99, some 99],
          SEXP.int [some 30, some 40]][if j < 1 then j else j + 1]? = some c →
        ∀ i, i < 2 → mat.cells[j * 2 + i]? = c.cells[i]? :=
  C2_exclude_one_column .INTSXP rfl 2 3 1 (by decide) (by decide) (by decide) (by decide)
    [.int [some 10, some 20], .int [some 99, some 99], .int [some 30, some 40]] rfl (by decide)

/-- A call within the caller contract returns a buffer of `n * p` cells:
the first `n` cells of each retained column, in the order of the columns. -/
theorem asmatrix_contract (dt : List SEXP) (n p rownames : Int)
    (h : CallerContract dt n p rownames) :
    ∃ mat, asmatrix dt n p rownames = .ok mat ∧ (mat.len : Int) = n * p ∧
      mat.cells = packed dt n (wrap32 (rownames - 1)) := by
  obtain ⟨⟨c0, hfirst, hsup, hcols⟩, hn, hp, hfit⟩ := h
  have hprod : n * p
      = ((n.toNat * (retained dt (wrap32 (rownames - 1))).length : Nat) : Int) := by
    rw [hp]; push_cast; rw [Int.toNat_of_nonneg hn]
  have hw : wrap32 (n * p) = n * p := by
    apply wrap32_of_range _ _ hfit
    rw [hprod]; unfold INT_MIN; omega
  have hcols2 : ∀ c ∈ retained dt (wrap32 (rownames - 1)),
      TYPEOF c = TYPEOF c0 ∧ n.toNat ≤ c.len := by
    intro c hc
    obtain ⟨h1, h2⟩ := hcols c hc
    exact ⟨h1, by omega⟩
  have hm : 0 ≤ wrap32 (n * p) := by rw [hw, hprod]; exact Int.ofNat_nonneg _
  have hroom : n.toNat * (retained dt (wrap32 (rownames - 1))).length
      ≤ (wrap32 (n * p)).toNat := by
    rw [hw, hprod, Int.toNat_ofNat]
  obtain ⟨mat, hmat, _, hcells⟩ :=
    asmatrix_ok dt n p rownames c0 hfirst hsup hcols2 hm hroom
  obtain ⟨_, _, _, _, _, hlen⟩ := asmatrix_returns dt n p rownames mat hmat
  refine ⟨mat, hmat, ?_, ?_⟩
  · rw [hlen, hw, hprod, Int.toNat_ofNat]
  · rw [hcells, hw, hprod, Int.toNat_ofNat, Nat.sub_self]
    simp

/-! ## C3: `rownames` is a 1-based position -/

/-- C3, as stated, fails in its last part: a `rownames` that excludes no
column does not by itself make the call copy the `L` columns into an output
of `L` columns.  With `L = 0` there is no column to read the type from, and
so it is with `L = 1` and `rownames = 1`; with `L = 1`, `n = 2` and
`ncol = 2` the output has four cells, for `rownames = 0` and for
`rownames = 2`, one past the end; two columns of different types, a column
of an unsupported type, a column shorter than `n`, a negative `n` and a
product `n * ncol` beyond an `int` each end in a fault. -/
theorem C3_counterexample :
    asmatrix [] 0 0 0 = .error .outOfRange ∧
    asmatrix [.int [some 1]] 1 0 1 = .error .outOfRange ∧
    asmatrix [.int [some 1, some 2]] 2 2 0 = .ok (.int [some 1, some 2, none, none]) ∧
    asmatrix [.int [some 1, some 2]] 2 2 2 = .ok (.int [some 1, some 2, none, none]) ∧
    asmatrix [.lgl [some 1], .real [some ⟨1⟩]] 1 2 0 = .error .wrongType ∧
    asmatrix [.other .CLOSXP rfl] 0 1 0 = .error (.unsupportedType .CLOSXP) ∧
    asmatrix [.int [some 1]] 2 1 0 = .error .outOfRange ∧
    asmatrix [.int []] (-1) 1 0 = .error .badAlloc ∧
    asmatrix [.lgl (List.replicate 2147483647 none), .lgl (List.replicate 2147483647 none)]
      2147483647 2 3 = .error .badAlloc :=
  ⟨by decide, by decide, by decide, by decide, by decide, by decide, by decide, by decide,
    by rfl⟩

/-- C3 (amended): for a collection of `L` columns and a `rownames` value
`r` (an `int`, `0 ≤ r`), the exclusion index is `r - 1`.  With `1 ≤ r ≤ L`
exactly column `r - 1` is excluded: the retained columns are the `L - 1`
others and the call is the call on the collection without that column.
With `r = 0` or `r > L` no column is excluded: no column index equals the
exclusion index, the retained columns are all `L` and the call is the call
with `rownames = 0`.  In both cases a call within the caller contract (a
first retained column of a supported type, every retained column of that
type and with `n` cells at least, `n ≥ 0`, `p` the number of retained
columns, `n * p ≤ INT_MAX`) copies every retained column: its output has
`n * p` cells, the first `n` cells of each retained column in their order. -/
theorem C3_rownames_exclusion (dt : List SEXP) (r : Int) (h0 : 0 ≤ r) (h1 : r ≤ INT_MAX) :
    wrap32 (r - 1) = r - 1 ∧
    (1 ≤ r ∧ r ≤ (dt.length : Int) →
      retained dt (wrap32 (r - 1)) = dt.eraseIdx (r - 1).toNat ∧
      (retained dt (wrap32 (r - 1))).length = dt.length - 1 ∧
      (∀ nrow ncol, asmatrix dt nrow ncol r
        = asmatrix (dt.eraseIdx (r - 1).toNat) nrow ncol 0) ∧
      (∀ n p : Int, CallerContract dt n p r →
        p = ((dt.length - 1 : Nat) : Int) ∧
        ∃ mat, asmatrix dt n p r = .ok mat ∧
          (mat.len : Int) = n * ((dt.length - 1 : Nat) : Int) ∧
          mat.cells = (dt.eraseIdx (r - 1).toNat).flatMap (fun c => c.cells.take n.toNat))) ∧
    (r = 0 ∨ (dt.length : Int) < r →
      (∀ j : Nat, j < dt.length → (j : Int) ≠ wrap32 (r - 1)) ∧
      retained dt (wrap32 (r - 1)) = dt ∧
      (∀ nrow ncol, asmatrix dt nrow ncol r = asmatrix dt nrow ncol 0) ∧
      (∀ n p : Int, CallerContract dt n p r →
        p = (dt.length : Int) ∧
        ∃ mat, asmatrix dt n p r = .ok mat ∧
          (mat.len : Int) = n * (dt.length : Int) ∧
          mat.cells = dt.flatMap (fun c => c.cells.take n.toNat))) := by
  have hw : wrap32 (r - 1) = r - 1 :=
    wrap32_of_range _ (by unfold INT_MIN; omega) (by omega)
  refine ⟨hw, ?_, ?_⟩
  · rintro ⟨hr1, hrL⟩
    have hk : ((r - 1).toNat : Int) = r - 1 := Int.toNat_of_nonneg (by omega)
    have hret : retained dt (wrap32 (r - 1)) = dt.eraseIdx (r - 1).toNat := by
      rw [hw, ← hk, Int.toNat_ofNat]; exact retained_eraseIdx dt _
    have hlen : (retained dt (wrap32 (r - 1))).length = dt.length - 1 := by
      rw [hret, List.length_eraseIdx, if_pos (by omega)]
    refine ⟨hret, hlen, ?_, ?_⟩
    · intro nrow ncol
      rw [asmatrix_retained dt nrow ncol r, hret]
    · intro n p hc
      have hp : p = ((dt.length - 1 : Nat) : Int) := by rw [hc.2.2.1, hlen]
      obtain ⟨mat, h1, h2, h3⟩ := asmatrix_contract dt n p r hc
      refine ⟨hp, mat, h1, by rw [h2, hp], ?_⟩
      rw [h3, packed, hret]
  · intro hr
    have hne : ∀ j : Nat, j < dt.length → (j : Int) ≠ wrap32 (r - 1) := by
      intro j hj; rw [hw]; omega
    have hret : retained dt (wrap32 (r - 1)) = dt := retained_none dt _ hne
    have hw0 : wrap32 (0 - 1) = -1 := by decide
    have hret0 : retained dt (wrap32 (0 - 1)) = dt :=
      retained_none dt _ (fun j _ => by rw [hw0]; omega)
    refine ⟨hne, hret, ?_, ?_⟩
    · intro nrow ncol
      rw [asmatrix_retained dt nrow ncol r, hret, asmatrix_retained dt nrow ncol 0, hret0]
    · intro n p hc
      have hp : p = (dt.length : Int) := by rw [hc.2.2.1, hret]
      obtain ⟨mat, h1, h2, h3⟩ := asmatrix_contract dt n p r hc
      refine ⟨hp, mat, h1, by rw [h2, hp], ?_⟩
      rw [h3, packed, hret]

/-- C3 (amended), at a character column followed by two integer columns:
`rownames = 1` excludes the character column and the output holds the two
others; `rownames = 4`, one past the end of the three integer columns,
excludes nothing and the output holds the three. -/
theorem C3_rownames_exclusion_witness :
    ((2 : Int) = ((List.length [SEXP.str [some ⟨7⟩, some ⟨8⟩], SEXP.int [some 1, some 2],
        SEXP.int [some 3, some 4]] - 1 : Nat) : Int) ∧
      ∃ mat, asmatrix [.str [some ⟨7⟩, some ⟨8⟩], .int [some 1, some 2],
          .int [some 3, some 4]] 2 2 1 = .ok mat ∧
        (mat.len : Int) = 2 * ((List.length [SEXP.str [some ⟨7⟩, some ⟨8⟩],
          SEXP.int [some 1, some 2], SEXP.int [some 3, some 4]] - 1 : Nat) : Int) ∧
        mat.cells = (List.eraseIdx [SEXP.str [some ⟨7⟩, some ⟨8⟩], SEXP.int [some 1, some 2],
          SEXP.int [some 3, some 4]] ((1 : Int) - 1).toNat).flatMap
            (fun c => c.cells.take (2 : Int).toNat)) ∧
    ((3 : Int) = (List.length [SEXP.int [some 1, some 2], SEXP.int [some 3, some 4],
        SEXP.int [some 5, some 6]] : Int) ∧
      ∃ mat, asmatrix [.int [some 1, some 2], .int [some 3, some 4],
          .int [some 5, some 6]] 2 3 4 = .ok mat ∧
        (mat.len : Int) = 2 * (List.length [SEXP.int [some 1, some 2],
          SEXP.int [some 3, some 4], SEXP.int [some 5, some 6]] : Int) ∧
        mat.cells = (List.flatMap [SEXP.int [some 1, some 2], SEXP.int [some 3, some 4],
          SEXP.int [some 5, some 6]] (fun c => c.cells.take (2 : Int).toNat))) :=
  ⟨((C3_rownames_exclusion [.str [some ⟨7⟩, some ⟨8⟩], .int [some 1, some 2],
      .int [some 3, some 4]] 1 (by decide) (by decide)).2.1
        ⟨by decide, by decide⟩).2.2.2 2 2 (by unfold CallerContract; decide),
   ((C3_rownames_exclusion [.int [some 1, some 2], .int [some 3, some 4],
      .int [some 5, some 6]] 4 (by decide) (by decide)).2.2
        (Or.inr (by decide))).2.2.2 2 3 (by unfold CallerContract; decide)⟩

/-! ## C4: the unsupported-type error -/

/-- C4, as stated, fails: the unsupported-type error is not the only way a
call fails, and failure does depend on `n`.  On one logical column,
`n = -1` and `p = 1` give `matlen = -1`, which `allocVector` rejects, while
`n = 0` and `p = 1` return a buffer; and when that column is the excluded
one there is no column to read a type from. -/
theorem C4_counterexample :
    (TYPEOF (SEXP.lgl [])).supported = true ∧
    asmatrix [.lgl []] (-1) 1 0 = .error .badAlloc ∧
    asmatrix [.lgl []] 0 1 0 = .ok (.lgl []) ∧
    asmatrix [.lgl []] 0 0 1 = .error .outOfRange :=
  ⟨by decide, by decide, by decide, by decide⟩

/-- C4 (amended): `asmatrix` raises the unsupported-type error, for the
type `t`, if and only if the first non-excluded column exists, has type `t`
and `t` is not one of the six supported types; no buffer is produced then.
Whether it is raised depends on nothing but the type of that column: two
calls whose first non-excluded columns have the same type agree on it,
whatever `n`, `p`, the cells and the other columns are.  And it is the only
failure of a call that keeps to the caller contract (every retained column
of the type of the first, with `n` cells at least, and
`0 ≤ n * (number of retained columns) ≤ n * p` in `int` arithmetic). -/
theorem C4_unsupported_type_error :
    (∀ (dt : List SEXP) (nrow ncol rownames : Int) (t : SEXPTYPE),
      asmatrix dt nrow ncol rownames = .error (.unsupportedType t) ↔
        ∃ c, (retained dt (wrap32 (rownames - 1))).head? = some c ∧ TYPEOF c = t ∧
          t.supported = false) ∧
    (∀ (dt dt2 : List SEXP) (nrow ncol rownames nrow2 ncol2 rownames2 : Int) (c c2 : SEXP),
      (retained dt (wrap32 (rownames - 1))).head? = some c →
      (retained dt2 (wrap32 (rownames2 - 1))).head? = some c2 →
      TYPEOF c = TYPEOF c2 →
      ∀ t, asmatrix dt nrow ncol rownames = .error (.unsupportedType t) ↔
        asmatrix dt2 nrow2 ncol2 rownames2 = .error (.unsupportedType t)) ∧
    (∀ (dt : List SEXP) (nrow ncol rownames : Int) (c0 : SEXP),
      (retained dt (wrap32 (rownames - 1))).head? = some c0 →
      (∀ c ∈ retained dt (wrap32 (rownames - 1)), TYPEOF c = TYPEOF c0 ∧ nrow.toNat ≤ c.len) →
      0 ≤ wrap32 (nrow * ncol) →
      nrow.toNat * (retained dt (wrap32 (rownames - 1))).length ≤ (wrap32 (nrow * ncol)).toNat →
      (∃ mat, asmatrix dt nrow ncol rownames = .ok mat) ∨
        asmatrix dt nrow ncol rownames = .error (.unsupportedType (TYPEOF c0))) := by
  refine ⟨asmatrix_unsupported_iff, ?_, ?_⟩
  · intro dt dt2 nrow ncol rownames nrow2 ncol2 rownames2 c c2 hc hc2 hty t
    rw [asmatrix_unsupported_iff, asmatrix_unsupported_iff, hc, hc2]
    constructor
    · rintro ⟨x, hx, h1, h2⟩
      injection hx with hx
      exact ⟨c2, rfl, by rw [← hty, hx, h1], h2⟩
    · rintro ⟨x, hx, h1, h2⟩
      injection hx with hx
      exact ⟨c, rfl, by rw [hty, hx, h1], h2⟩
  · intro dt nrow ncol rownames c0 hfirst hcols hm hroom
    cases hs : (TYPEOF c0).supported with
    | true =>
      obtain ⟨mat, h, _⟩ := asmatrix_ok dt nrow ncol rownames c0 hfirst hs hcols hm hroom
      exact Or.inl ⟨mat, h⟩
    | false =>
      exact Or.inr ((asmatrix_unsupported_iff dt nrow ncol rownames _).mpr ⟨c0, hfirst, rfl, hs⟩)

/-- C4 (amended), at a closure in the place of the first column. -/
theorem C4_unsupported_type_error_witness :
    asmatrix [.other .CLOSXP rfl, .int [some 1]] 1 2 0 = .error (.unsupportedType .CLOSXP) :=
  (C4_unsupported_type_error.1 [.other .CLOSXP rfl, .int [some 1]] 1 2 0 .CLOSXP).mpr
    ⟨.other .CLOSXP rfl, rfl, rfl, rfl⟩

/-! ## C5: empty shapes -/

/-- C5, as stated, fails for `p = 0`: with an empty collection, and with a
one-column collection whose column is the excluded one, the column that
`asmatrix` reads the type from is outside the collection. -/
theorem C5_counterexample :
    asmatrix [] 0 0 0 = .error .outOfRange ∧
    asmatrix [.lgl []] 0 0 1 = .error .outOfRange ∧
    asmatrix [.lgl [some 1]] 1 0 1 = .error .outOfRange :=
  ⟨by decide, by decide, by decide⟩

/-- C5 (amended): for every call of `asmatrix` with `n = 0`, whatever `p`
and `rownames` are, on a collection that has a first non-excluded column, of
a supported type, and whose non-excluded columns all have that type, the
result is an empty buffer of that type and no failure occurs. -/
theorem C5_zero_rows (dt : List SEXP) (ncol rownames : Int) (c0 : SEXP)
    (hfirst : (retained dt (wrap32 (rownames - 1))).head? = some c0)
    (hsup : (TYPEOF c0).supported = true)
    (hcols : ∀ c ∈ retained dt (wrap32 (rownames - 1)), TYPEOF c = TYPEOF c0) :
    ∃ mat, asmatrix dt 0 ncol rownames = .ok mat ∧ TYPEOF mat = TYPEOF c0 ∧
      mat.len = 0 ∧ mat.cells = [] := by
  have hw : wrap32 (0 * ncol) = 0 := by rw [Int.zero_mul]; decide
  obtain ⟨mat, h1, h2, h3⟩ := asmatrix_ok dt 0 ncol rownames c0 hfirst hsup
    (fun c hc => ⟨hcols c hc, Nat.zero_le _⟩) (by rw [hw]) (by rw [hw]; simp)
  have h4 : mat.cells = [] := by
    rw [h3, hw]
    simp [packed]
  exact ⟨mat, h1, h2, by rw [SEXP.len, h4]; rfl, h4⟩

/-- C5 (amended), at three numeric columns without cells, the first one
excluded, and `p = 2`. -/
theorem C5_zero_rows_witness :
    ∃ mat, asmatrix [.str [], .real [], .real []] 0 2 1 = .ok mat ∧
      TYPEOF mat = TYPEOF (.real []) ∧ mat.len = 0 ∧ mat.cells = [] :=
  C5_zero_rows [.str [], .real [], .real []] 2 1 (.real []) (by decide) (by decide) (by decide)

/-! ## C6: the length of the buffer -/

/-- C6, as stated, fails: the supplied `ncol` does determine the length.
One column of two cells, none excluded, with `n = 2` and `p = 2`, gives a
buffer of `n * p = 4` cells, not of `2 * 1`; the last two are never
written. -/
theorem C6_counterexample :
    retained [SEXP.int [some 1, some 2]] (wrap32 (0 - 1)) = [SEXP.int [some 1, some 2]] ∧
    asmatrix [.int [some 1, some 2]] 2 2 0 = .ok (.int [some 1, some 2, none, none]) :=
  ⟨by decide, by decide⟩

/-- C6 (amended): the length of the buffer that `asmatrix` returns is
`matlen = n * p`, computed in `int` arithmetic from the supplied `nrow` and
`ncol`, for every `n`, `p`, collection and exclusion index for which it
returns; and it returns, with a buffer of `n` times the number of retained
columns, when `ncol` is that number, the product fits an `int` and the
retained columns have the type of the first and `n` cells at least. -/
theorem C6_buffer_length :
    (∀ (dt : List SEXP) (nrow ncol rownames : Int) (mat : SEXP),
      asmatrix dt nrow ncol rownames = .ok mat →
        0 ≤ wrap32 (nrow * ncol) ∧ mat.len = (wrap32 (nrow * ncol)).toNat) ∧
    (∀ (dt : List SEXP) (n : Nat) (rownames : Int) (c0 : SEXP),
      (retained dt (wrap32 (rownames - 1))).head? = some c0 →
      (TYPEOF c0).supported = true →
      (∀ c ∈ retained dt (wrap32 (rownames - 1)), TYPEOF c = TYPEOF c0 ∧ n ≤ c.len) →
      (n : Int) * ((retained dt (wrap32 (rownames - 1))).length : Int) ≤ INT_MAX →
      ∃ mat, asmatrix dt n ((retained dt (wrap32 (rownames - 1))).length : Int) rownames
          = .ok mat ∧
        mat.len = n * (retained dt (wrap32 (rownames - 1))).length) := by
  constructor
  · intro dt nrow ncol rownames mat h
    obtain ⟨c, _, _, _, h4, h5⟩ := asmatrix_returns dt nrow ncol rownames mat h
    exact ⟨h4, h5⟩
  · intro dt n rownames c0 hfirst hsup hcols hfit
    have hnn : (0 : Int) ≤ (n : Int) * ((retained dt (wrap32 (rownames - 1))).length : Int) := by
      positivity
    have hw : wrap32 ((n : Int) * ((retained dt (wrap32 (rownames - 1))).length : Int))
        = ((n * (retained dt (wrap32 (rownames - 1))).length : Nat) : Int) := by
      rw [wrap32_of_range _ (by unfold INT_MIN; omega) hfit]; push_cast; rfl
    obtain ⟨mat, h1, _, h3⟩ := asmatrix_ok dt n _ rownames c0 hfirst hsup
      (fun c hc => by rw [Int.toNat_ofNat]; exact hcols c hc)
      (by rw [hw]; exact Int.ofNat_nonneg _)
      (by rw [hw, Int.toNat_ofNat, Int.toNat_ofNat])
    refine ⟨mat, h1, ?_⟩
    rw [SEXP.len, h3, List.length_append, packed_length dt n _
      (fun c hc => by rw [Int.toNat_ofNat]; exact (hcols c hc).2), hw]
    simp

/-- C6 (amended), at one column and `ncol = 2`: four cells. -/
theorem C6_buffer_length_witness :
    0 ≤ wrap32 (2 * 2) ∧ (SEXP.int [some 1, some 2, none, none]).len = (wrap32 (2 * 2)).toNat :=
  C6_buffer_length.1 [.int [some 1, some 2]] 2 2 0 (.int [some 1, some 2, none, none])
    (by decide)

/-! ## C7: a worked example, the middle column excluded -/

/-- C7, as stated, fails: with `n = 2` and `p = 3` the buffer has
`n * p = 6` cells; the first four are `10, 20, 30, 40` and the last two are
never written. -/
theorem C7_counterexample :
    asmatrix [.int [some 10, some 20], .int [some 99, some 99], .int [some 30, some 40]] 2 3 2
      = .ok (.int [some 10, some 20, some 30, some 40, none, none]) := by
  decide

/-- C7 (amended): `asmatrix` applied to the three integer columns
`[[10,20],[99,99],[30,40]]` with `n = 2`, `rownames = 2` (excluded 0-based
index 1) and `p = 2`, the number of retained columns, returns exactly the
four-cell integer buffer `[10,20,30,40]`. -/
theorem C7_example_excluded_middle :
    asmatrix [.int [some 10, some 20], .int [some 99, some 99], .int [some 30, some 40]] 2 2 2
      = .ok (.int [some 10, some 20, some 30, some 40]) := by
  decide

/-! ## C8: a worked example, a third column -/

/-- C8, as stated, fails: the third column is not ignored.  With `n = 2`,
`p = 2` and no column excluded, the logical routine goes on to the third
column: it applies `LOGICAL` to the integer column, and even for a third
column that is logical its cells fall outside the four-cell buffer. -/
theorem C8_counterexample :
    asmatrix [.lgl [some 1, some 0], .lgl [some 0, some 1], .int [some 1, some 2]] 2 2 0
      = .error .wrongType ∧
    asmatrix [.lgl [some 1, some 0], .lgl [some 0, some 1], .lgl [some 1, some 1]] 2 2 0
      = .error .outOfRange :=
  ⟨by decide, by decide⟩

/-- C8 (amended): `asmatrix` applied to the two columns
`[[true,false],[false,true]]` with `n = 2`, `p = 2` and no column excluded
detects the logical type from the first column and returns exactly
`[true,false,false,true]`; so it does on the three-column collection
`[[true,false],[false,true],[1,2]]` when the third column is the excluded
one (`rownames = 3`). -/
theorem C8_example_logical :
    asmatrix [.lgl [some 1, some 0], .lgl [some 0, some 1]] 2 2 0
      = .ok (.lgl [some 1, some 0, some 0, some 1]) ∧
    asmatrix [.lgl [some 1, some 0], .lgl [some 0, some 1], .int [some 1, some 2]] 2 2 3
      = .ok (.lgl [some 1, some 0, some 0, some 1]) :=
  ⟨by decide, by decide⟩

/-! ## C9: type detection and the type of the result -/

/-- C9: for every collection that has a first non-excluded column `c`,
`asmatrix` reads the type from it: it is column 1 when the exclusion index
is 0 and column 0 otherwise.  Every buffer that `asmatrix` returns has the
type of `c`, which is then one of the six supported types; when the type of
`c` is not supported the error of that type is raised; and a call that
keeps to the caller contract, with `c` of a supported type, does return a
buffer of the type of `c`. -/
theorem C9_type_detection (dt : List SEXP) (nrow ncol rownames : Int) (c : SEXP)
    (hfirst : (retained dt (wrap32 (rownames - 1))).head? = some c) :
    dt[if wrap32 (rownames - 1) = 0 then 1 else 0]? = some c ∧
    (∀ mat, asmatrix dt nrow ncol rownames = .ok mat →
      TYPEOF mat = TYPEOF c ∧ (TYPEOF c).supported = true) ∧
    ((TYPEOF c).supported = false →
      asmatrix dt nrow ncol rownames = .error (.unsupportedType (TYPEOF c))) ∧
    ((TYPEOF c).supported = true →
      (∀ x ∈ retained dt (wrap32 (rownames - 1)), TYPEOF x = TYPEOF c ∧ nrow.toNat ≤ x.len) →
      0 ≤ wrap32 (nrow * ncol) →
      nrow.toNat * (retained dt (wrap32 (rownames - 1))).length ≤ (wrap32 (nrow * ncol)).toNat →
      ∃ mat, asmatrix dt nrow ncol rownames = .ok mat ∧ TYPEOF mat = TYPEOF c) := by
  have hc : dt[if wrap32 (rownames - 1) = 0 then 1 else 0]? = some c := by
    rw [← retained_head]; exact hfirst
  refine ⟨hc, ?_, ?_, ?_⟩
  · intro mat h
    obtain ⟨c2, h1, h2, h3, _⟩ := asmatrix_returns dt nrow ncol rownames mat h
    rw [hc] at h1
    injection h1 with h1
    subst h1
    exact ⟨h3, h2⟩
  · intro hs
    exact (asmatrix_unsupported_iff dt nrow ncol rownames _).mpr ⟨c, hfirst, rfl, hs⟩
  · intro hs hcols hm hroom
    obtain ⟨mat, h1, h2, _⟩ := asmatrix_ok dt nrow ncol rownames c hfirst hs hcols hm hroom
    exact ⟨mat, h1, h2⟩

/-- C9, at a character row-name column followed by two complex columns,
`rownames = 1`: the type is read from column 1 and the result is complex. -/
theorem C9_type_detection_witness :
    TYPEOF (SEXP.cplx [some ⟨⟨1⟩, ⟨2⟩⟩, some ⟨⟨3⟩, ⟨4⟩⟩]) = TYPEOF (SEXP.cplx [some ⟨⟨1⟩, ⟨2⟩⟩]) ∧
      (TYPEOF (SEXP.cplx [some ⟨⟨1⟩, ⟨2⟩⟩])).supported = true :=
  (C9_type_detection [.str [some ⟨7⟩], .cplx [some ⟨⟨1⟩, ⟨2⟩⟩], .cplx [some ⟨⟨3⟩, ⟨4⟩⟩]] 1 2 1
    (.cplx [some ⟨⟨1⟩, ⟨2⟩⟩]) (by decide)).2.1
    (.cplx [some ⟨⟨1⟩, ⟨2⟩⟩, some ⟨⟨3⟩, ⟨4⟩⟩]) (by decide)

/-! ## C10: the allocated length -/

/-- C10: for every `n ≥ 0` and `p ≥ 0` with `n * p ≤ INT_MAX`, `asmatrix`
calls the copy routine of the detected type with `matlen = n * p`; every
one of the six routines allocates a vector of `matlen` cells of its type,
and every buffer it returns has exactly `matlen` cells, whatever the number
of columns and the exclusion index are; and it returns one whenever the
retained columns, each of the type of the routine and with `n` cells at
least, fit in `matlen` cells. -/
theorem C10_allocated_length :
    (∀ (dt : List SEXP) (n p rownames : Int) (c : SEXP),
      0 ≤ n → 0 ≤ p → n * p ≤ INT_MAX →
      dt[if wrap32 (rownames - 1) = 0 then 1 else 0]? = some c →
      (TYPEOF c).supported = true →
      ∃ f, (TYPEOF c, f) ∈ routines ∧
        asmatrix dt n p rownames = f dt (n * p) n (wrap32 (rownames - 1))) ∧
    (∀ (T : SEXPTYPE) (f : List SEXP → Int → Int → Int → Result SEXP), (T, f) ∈ routines →
      ∀ (matlen : Int), 0 ≤ matlen →
        ∃ mat, allocVector T matlen = .ok mat ∧ mat.len = matlen.toNat ∧ TYPEOF mat = T) ∧
    (∀ (T : SEXPTYPE) (f : List SEXP → Int → Int → Int → Result SEXP), (T, f) ∈ routines →
      ∀ (dt : List SEXP) (matlen n rncolnum : Int) (mat : SEXP),
        f dt matlen n rncolnum = .ok mat →
          0 ≤ matlen ∧ mat.len = matlen.toNat ∧ TYPEOF mat = T) ∧
    (∀ (T : SEXPTYPE) (f : List SEXP → Int → Int → Int → Result SEXP), (T, f) ∈ routines →
      ∀ (dt : List SEXP) (matlen n rncolnum : Int),
        0 ≤ matlen →
        (∀ c ∈ retained dt rncolnum, TYPEOF c = T ∧ n.toNat ≤ c.len) →
        n.toNat * (retained dt rncolnum).length ≤ matlen.toNat →
        ∃ mat, f dt matlen n rncolnum = .ok mat ∧ mat.len = matlen.toNat) := by
  refine ⟨?_, ?_, ?_, ?_⟩
  · intro dt n p rownames c hn hp hnp hc hs
    have hnn : 0 ≤ n * p := Int.mul_nonneg hn hp
    rcases asmatrix_dispatch dt n p rownames c hc with ⟨hs2, _⟩ | ⟨_, f, hf, he⟩
    · rw [hs] at hs2; cases hs2
    · rw [wrap32_of_range _ (by unfold INT_MIN; omega) hnp] at he
      exact ⟨f, hf, he⟩
  · intro T f hf matlen hm
    have hneg : ¬ matlen < 0 := by omega
    simp only [routines, List.mem_cons, Prod.mk.injEq, List.mem_singleton, List.not_mem_nil,
      or_false] at hf
    rcases hf with ⟨rfl, _⟩ | ⟨rfl, _⟩ | ⟨rfl, _⟩ | ⟨rfl, _⟩ | ⟨rfl, _⟩ | ⟨rfl, _⟩ <;>
      (simp only [allocVector, if_neg hneg]
       exact ⟨_, rfl, by simp [SEXP.len, SEXP.cells], rfl⟩)
  · intro T f hf dt matlen n rncolnum mat h
    have hg := routines_good T f hf dt matlen n rncolnum
    rw [h] at hg
    exact hg
  · intro T f hf dt matlen n rncolnum hm hcols hroom
    obtain ⟨mat, h1, _, _⟩ := routines_ok T f hf dt matlen n rncolnum hm hcols hroom
    have hg := routines_good T f hf dt matlen n rncolnum
    rw [h1] at hg
    exact ⟨mat, h1, hg.2.1⟩

/-- C10, at the numeric routine called with `matlen = 6` on one column of
two cells: the buffer has six cells. -/
theorem C10_allocated_length_witness :
    (0 : Int) ≤ 6 ∧
      (SEXP.real [some ⟨1⟩, some ⟨2⟩, none, none, none, none]).len = (6 : Int).toNat ∧
      TYPEOF (SEXP.real [some ⟨1⟩, some ⟨2⟩, none, none, none, none]) = .REALSXP :=
  C10_allocated_length.2.2.1 .REALSXP asmatrix_numeric (by simp [routines])
    [.real [some ⟨1⟩, some ⟨2⟩]] 6 2 (-1) (.real [some ⟨1⟩, some ⟨2⟩, none, none, none, none])
    (by decide)

/-! ## The six routines are the generic routine -/

theorem asmatrix_logical_rows_gen (pcol : List (Option Int)) (todo ii : Nat) (st : List (Option Int) × Nat) :
    asmatrix_logical_rows pcol todo ii st = genRows kitLogical pcol todo ii st := by
  induction todo generalizing ii st with
  | zero => rfl
  | succ k ih =>
    obtain ⟨pmat, v⟩ := st
    simp only [asmatrix_logical_rows, genRows, ih]
    rfl

theorem asmatrix_logical_isLoop : IsLoopOf kitLogical asmatrix_logical_cols := by
  intro dt n rn todo jj st
  induction todo generalizing jj st with
  | zero => rfl
  | succ k ih =>
    simp only [asmatrix_logical_cols, genCols, ih, asmatrix_logical_rows_gen]
    rfl

theorem asmatrix_logical_isRoutine : IsRoutineOf kitLogical asmatrix_logical := by
  intro dt matlen n rn
  simp only [asmatrix_logical, genRoutine, asmatrix_logical_isLoop dt n rn, kitLogical,
    bind_assoc]

theorem asmatrix_integer_rows_gen (pcol : List (Option Int)) (todo ii : Nat) (st : List (Option Int) × Nat) :
    asmatrix_integer_rows pcol todo ii st = genRows kitInteger pcol todo ii st := by
  induction todo generalizing ii st with
  | zero => rfl
  | succ k ih =>
    obtain ⟨pmat, v⟩ := st
    simp only [asmatrix_integer_rows, genRows, ih]
    rfl

theorem asmatrix_integer_isLoop : IsLoopOf kitInteger asmatrix_integer_cols := by
  intro dt n rn todo jj st
  induction todo generalizing jj st with
  | zero => rfl
  | succ k ih =>
    simp only [asmatrix_integer_cols, genCols, ih, asmatrix_integer_rows_gen]
    rfl

theorem asmatrix_integer_isRoutine : IsRoutineOf kitInteger asmatrix_integer := by
  intro dt matlen n rn
  simp only [asmatrix_integer, genRoutine, asmatrix_integer_isLoop dt n rn, kitInteger,
    bind_assoc]

theorem asmatrix_numeric_rows_gen (pcol : List (Option Double)) (todo ii : Nat) (st : List (Option Double) × Nat) :
    asmatrix_numeric_rows pcol todo ii st = genRows kitNumeric pcol todo ii st := by
  induction todo generalizing ii st with
  | zero => rfl
  | succ k ih =>
    obtain ⟨pmat, v⟩ := st
    simp only [asmatrix_numeric_rows, genRows, ih]
    rfl

theorem asmatrix_numeric_isLoop : IsLoopOf kitNumeric asmatrix_numeric_cols := by
  intro dt n rn todo jj st
  induction todo generalizing jj st with
  | zero => rfl
  | succ k ih =>
    simp only [asmatrix_numeric_cols, genCols, ih, asmatrix_numeric_rows_gen]
    rfl

theorem asmatrix_numeric_isRoutine : IsRoutineOf kitNumeric asmatrix_numeric := by
  intro dt matlen n rn
  simp only [asmatrix_numeric, genRoutine, asmatrix_numeric_isLoop dt n rn, kitNumeric,
    bind_assoc]

theorem asmatrix_complex_rows_gen (pcol : List (Option Rcomplex)) (todo ii : Nat) (st : List (Option Rcomplex) × Nat) :
    asmatrix_complex_rows pcol todo ii st = genRows kitComplex pcol todo ii st := by
  induction todo generalizing ii st with
  | zero => rfl
  | succ k ih =>
    obtain ⟨pmat, v⟩ := st
    simp only [asmatrix_complex_rows, genRows, ih]
    rfl

theorem asmatrix_complex_isLoop : IsLoopOf kitComplex asmatrix_complex_cols := by
  intro dt n rn todo jj st
  induction todo generalizing jj st with
  | zero => rfl
  | succ k ih =>
    simp only [asmatrix_complex_cols, genCols, ih, asmatrix_complex_rows_gen]
    rfl

theorem asmatrix_complex_isRoutine : IsRoutineOf kitComplex asmatrix_complex := by
  intro dt matlen n rn
  simp only [asmatrix_complex, genRoutine, asmatrix_complex_isLoop dt n rn, kitComplex,
    bind_assoc]

theorem asmatrix_character_rows_gen (pcol : SEXP) (todo ii : Nat) (st : SEXP × Nat) :
    asmatrix_character_rows pcol todo ii st = genRows kitCharacter pcol todo ii st := by
  induction todo generalizing ii st with
  | zero => rfl
  | succ k ih =>
    obtain ⟨pmat, v⟩ := st
    simp only [asmatrix_character_rows, genRows, ih]
    rfl

theorem asmatrix_character_isLoop : IsLoopOf kitCharacter asmatrix_character_cols := by
  intro dt n rn todo jj st
  induction todo generalizing jj st with
  | zero => rfl
  | succ k ih =>
    simp only [asmatrix_character_cols, genCols, ih, asmatrix_character_rows_gen]
    rfl

theorem asmatrix_character_isRoutine : IsRoutineOf kitCharacter asmatrix_character := by
  intro dt matlen n rn
  simp only [asmatrix_character, genRoutine, asmatrix_character_isLoop dt n rn, kitCharacter]
  rfl

theorem asmatrix_list_rows_gen (pcol : SEXP) (todo ii : Nat) (st : SEXP × Nat) :
    asmatrix_list_rows pcol todo ii st = genRows kitList pcol todo ii st := by
  induction todo generalizing ii st with
  | zero => rfl
  | succ k ih =>
    obtain ⟨pmat, v⟩ := st
    simp only [asmatrix_list_rows, genRows, ih]
    rfl

theorem asmatrix_list_isLoop : IsLoopOf kitList asmatrix_list_cols := by
  intro dt n rn todo jj st
  induction todo generalizing jj st with
  | zero => rfl
  | succ k ih =>
    simp only [asmatrix_list_cols, genCols, ih, asmatrix_list_rows_gen]
    rfl

theorem asmatrix_list_isRoutine : IsRoutineOf kitList asmatrix_list := by
  intro dt matlen n rn
  simp only [asmatrix_list, genRoutine, asmatrix_list_isLoop dt n rn, kitList]
  rfl

/-! ## The record of copies -/

theorem logRows_erase {β γ μ : Type} (K : Kit β γ μ) (pcol : β) (jj todo ii : Nat)
    (st : μ × Nat) (log : List Move) :
    (logRows K pcol jj todo ii (st, log)).map Prod.fst = genRows K pcol todo ii st := by
  induction todo generalizing ii st log with
  | zero => rfl
  | succ k ih =>
    obtain ⟨mat, v⟩ := st
    simp only [logRows, genRows, bind, Except.bind]
    cases K.read pcol ii with
    | error e => rfl
    | ok x =>
      simp only []
      cases K.write mat v x with
      | error e => rfl
      | ok mat2 => exact ih (ii + 1) (mat2, v + 1) _

theorem logCols_erase {β γ μ : Type} (K : Kit β γ μ) (dt : List SEXP) (n rn : Int)
    (todo jj : Nat) (st : μ × Nat) (log : List Move) :
    (logCols K dt n rn todo jj (st, log)).map Prod.fst = genCols K dt n rn todo jj st := by
  induction todo generalizing jj st log with
  | zero => rfl
  | succ k ih =>
    by_cases hskip : (jj : Int) = rn
    · simp only [logCols, genCols, if_pos hskip]
      exact ih (jj + 1) st log
    · simp only [logCols, genCols, if_neg hskip, bind, Except.bind]
      cases VECTOR_ELT dt jj with
      | error e => rfl
      | ok col =>
        simp only []
        cases K.column col with
        | error e => rfl
        | ok pcol =>
          simp only []
          have hr := logRows_erase K pcol jj n.toNat 0 st log
          cases hl : logRows K pcol jj n.toNat 0 (st, log) with
          | error e =>
            rw [hl] at hr
            cases hg : genRows K pcol n.toNat 0 st with
            | error e2 => rw [hg] at hr; simp only [Except.map] at hr; cases hr; rfl
            | ok st2 => rw [hg] at hr; cases hr
          | ok sl =>
            obtain ⟨st2, log2⟩ := sl
            rw [hl] at hr
            simp only [Except.map] at hr
            rw [← hr]
            exact ih (jj + 1) st2 log2

theorem logRoutine_erase {β γ μ : Type} (K : Kit β γ μ) (dt : List SEXP) (matlen n rn : Int) :
    (logRoutine K dt matlen n rn).map Prod.fst = genRoutine K dt matlen n rn := by
  simp only [logRoutine, genRoutine, bind, Except.bind]
  cases K.alloc matlen with
  | error e => rfl
  | ok mat =>
    simp only []
    have hc := logCols_erase K dt n rn dt.length 0 (mat, 0) []
    cases hl : logCols K dt n rn dt.length 0 ((mat, 0), []) with
    | error e =>
      rw [hl] at hc
      cases hg : genCols K dt n rn dt.length 0 (mat, 0) with
      | error e2 => rw [hg] at hc; simp only [Except.map] at hc; cases hc; rfl
      | ok st2 => rw [hg] at hc; cases hc
    | ok sl =>
      obtain ⟨⟨mat2, v2⟩, log2⟩ := sl
      rw [hl] at hc
      simp only [Except.map] at hc
      rw [← hc]
      rfl

theorem logAsmatrix_erase (dt : List SEXP) (nrow ncol rownames : Int) :
    (logAsmatrix dt nrow ncol rownames).map Prod.fst = asmatrix dt nrow ncol rownames := by
  simp only [logAsmatrix, asmatrix, bind, Except.bind]
  cases VECTOR_ELT dt (if wrap32 (rownames - 1) = 0 then 1 else 0) with
  | error e => rfl
  | ok c =>
    simp only []
    cases TYPEOF c <;>
      first
      | rfl
      | (simp only [asmatrix_logical_isRoutine _ _ _ _]; exact logRoutine_erase _ _ _ _ _)
      | (simp only [asmatrix_integer_isRoutine _ _ _ _]; exact logRoutine_erase _ _ _ _ _)
      | (simp only [asmatrix_numeric_isRoutine _ _ _ _]; exact logRoutine_erase _ _ _ _ _)
      | (simp only [asmatrix_complex_isRoutine _ _ _ _]; exact logRoutine_erase _ _ _ _ _)
      | (simp only [asmatrix_character_isRoutine _ _ _ _]; exact logRoutine_erase _ _ _ _ _)
      | (simp only [asmatrix_list_isRoutine _ _ _ _]; exact logRoutine_erase _ _ _ _ _)

/-- A run that records its copies returns exactly when the run does. -/
theorem logAsmatrix_of_ok (dt : List SEXP) (nrow ncol rownames : Int) (mat : SEXP)
    (h : asmatrix dt nrow ncol rownames = .ok mat) :
    ∃ log, logAsmatrix dt nrow ncol rownames = .ok (mat, log) := by
  have he := logAsmatrix_erase dt nrow ncol rownames
  rw [h] at he
  cases hl : logAsmatrix dt nrow ncol rownames with
  | error e => rw [hl] at he; cases he
  | ok ml =>
    obtain ⟨m, log⟩ := ml
    rw [hl] at he
    simp only [Except.map] at he
    injection he with he
    subst he
    exact ⟨log, rfl⟩

theorem rowMoves_append_log {β γ μ : Type} (K : Kit β γ μ) (pcol : β) (jj todo ii : Nat)
    (mat : μ) (v : Nat) (log : List Move) (mat2 : μ) (v2 : Nat) (log2 : List Move)
    (h : logRows K pcol jj todo ii ((mat, v), log) = .ok ((mat2, v2), log2)) :
    v2 = v + todo ∧ log2 = log ++ rowMoves jj todo ii v := by
  induction todo generalizing ii mat v log with
  | zero =>
    simp only [logRows] at h
    injection h with h
    simp only [Prod.mk.injEq] at h
    obtain ⟨⟨_, rfl⟩, rfl⟩ := h
    simp [rowMoves]
  | succ k ih =>
    simp only [logRows, bind, Except.bind] at h
    cases hr : K.read pcol ii with
    | error e => rw [hr] at h; cases h
    | ok x =>
      rw [hr] at h
      simp only [] at h
      cases hw : K.write mat v x with
      | error e => rw [hw] at h; cases h
      | ok mat3 =>
        rw [hw] at h
        obtain ⟨h1, h2⟩ := ih (ii + 1) mat3 (v + 1) _ h
        refine ⟨by omega, ?_⟩
        rw [h2]
        simp [rowMoves]

theorem colMoves_append_log {β γ μ : Type} (K : Kit β γ μ) (dt : List SEXP) (n rn : Int)
    (todo jj : Nat) (mat : μ) (v : Nat) (log : List Move) (mat2 : μ) (v2 : Nat)
    (log2 : List Move)
    (h : logCols K dt n rn todo jj ((mat, v), log) = .ok ((mat2, v2), log2)) :
    v2 = v + n.toNat * keptCount rn todo jj ∧ log2 = log ++ colMoves n.toNat rn todo jj v := by
  induction todo generalizing jj mat v log with
  | zero =>
    simp only [logCols] at h
    injection h with h
    simp only [Prod.mk.injEq] at h
    obtain ⟨⟨_, rfl⟩, rfl⟩ := h
    simp [colMoves, keptCount]
  | succ k ih =>
    by_cases hskip : (jj : Int) = rn
    · simp only [logCols, if_pos hskip] at h
      simp only [colMoves, keptCount, if_pos hskip]
      exact ih (jj + 1) mat v log h
    · simp only [logCols, if_neg hskip, bind, Except.bind] at h
      simp only [colMoves, keptCount, if_neg hskip]
      cases hc : VECTOR_ELT dt jj with
      | error e => rw [hc] at h; cases h
      | ok col =>
        rw [hc] at h
        simp only [] at h
        cases hp : K.column col with
        | error e => rw [hp] at h; cases h
        | ok pcol =>
          rw [hp] at h
          simp only [] at h
          cases hl : logRows K pcol jj n.toNat 0 ((mat, v), log) with
          | error e => rw [hl] at h; cases h
          | ok sl =>
            obtain ⟨⟨mat3, v3⟩, log3⟩ := sl
            rw [hl] at h
            obtain ⟨h1, h2⟩ := rowMoves_append_log K pcol jj n.toNat 0 mat v log mat3 v3 log3 hl
            obtain ⟨h3, h4⟩ := ih (jj + 1) mat3 v3 log3 h
            subst h1
            refine ⟨?_, ?_⟩
            · rw [h3, Nat.mul_succ]; omega
            · rw [h4, h2, List.append_assoc]

theorem logRoutine_log {β γ μ : Type} (K : Kit β γ μ) (dt : List SEXP) (matlen n rn : Int)
    (mat : SEXP) (log : List Move) (h : logRoutine K dt matlen n rn = .ok (mat, log)) :
    log = moves dt.length n rn := by
  simp only [logRoutine, bind, Except.bind] at h
  cases ha : K.alloc matlen with
  | error e => rw [ha] at h; cases h
  | ok m =>
    rw [ha] at h
    simp only [] at h
    cases hl : logCols K dt n rn dt.length 0 ((m, 0), []) with
    | error e => rw [hl] at h; cases h
    | ok sl =>
      obtain ⟨⟨m2, v2⟩, log2⟩ := sl
      rw [hl] at h
      simp only [pure, Except.pure] at h
      injection h with h
      simp only [Prod.mk.injEq] at h
      obtain ⟨_, rfl⟩ := h
      have := (colMoves_append_log K dt n rn dt.length 0 m 0 [] m2 v2 log2 hl).2
      simpa [moves] using this

theorem logAsmatrix_log (dt : List SEXP) (nrow ncol rownames : Int) (mat : SEXP)
    (log : List Move) (h : logAsmatrix dt nrow ncol rownames = .ok (mat, log)) :
    log = moves dt.length nrow (wrap32 (rownames - 1)) := by
  simp only [logAsmatrix, bind, Except.bind] at h
  cases hc : VECTOR_ELT dt (if wrap32 (rownames - 1) = 0 then 1 else 0) with
  | error e => rw [hc] at h; cases h
  | ok c =>
    rw [hc] at h
    simp only [] at h
    cases hT : TYPEOF c <;> rw [hT] at h <;> simp only [] at h <;>
      first
      | exact logRoutine_log _ _ _ _ _ _ _ h
      | cases h

theorem mem_rowMoves (jj todo ii v : Nat) (m : Move) (h : m ∈ rowMoves jj todo ii v) :
    m.col = jj ∧ ii ≤ m.row ∧ m.row < ii + todo ∧ m.dest + ii = v + m.row := by
  induction todo generalizing ii v with
  | zero => simp [rowMoves] at h
  | succ k ih =>
    simp only [rowMoves, List.mem_cons] at h
    rcases h with rfl | h
    · exact ⟨rfl, Nat.le_refl _, Nat.lt_add_of_pos_right (Nat.succ_pos k), rfl⟩
    · obtain ⟨h1, h2, h3, h4⟩ := ih (ii + 1) (v + 1) h
      exact ⟨h1, by omega, by omega, by omega⟩

theorem mem_colMoves (n : Nat) (rn : Int) (todo jj v : Nat) (m : Move)
    (h : m ∈ colMoves n rn todo jj v) :
    jj ≤ m.col ∧ m.col < jj + todo ∧ (m.col : Int) ≠ rn ∧ m.row < n ∧
      m.dest = v + n * keptCount rn (m.col - jj) jj + m.row := by
  induction todo generalizing jj v with
  | zero => simp [colMoves] at h
  | succ k ih =>
    by_cases hskip : (jj : Int) = rn
    · simp only [colMoves, if_pos hskip] at h
      obtain ⟨h1, h2, h3, h4, h5⟩ := ih (jj + 1) v h
      refine ⟨by omega, by omega, h3, h4, ?_⟩
      have hsub : m.col - jj = (m.col - (jj + 1)) + 1 := by omega
      rw [h5, hsub]
      simp only [keptCount, if_pos hskip]
    · simp only [colMoves, if_neg hskip, List.mem_append] at h
      rcases h with h | h
      · obtain ⟨h1, _, h3, h4⟩ := mem_rowMoves jj n 0 v m h
        refine ⟨by omega, by omega, by rw [h1]; exact hskip, by omega, ?_⟩
        rw [h1, Nat.sub_self]
        simp only [keptCount, Nat.mul_zero]
        omega
      · obtain ⟨h1, h2, h3, h4, h5⟩ := ih (jj + 1) (v + n) h
        refine ⟨by omega, by omega, h3, h4, ?_⟩
        have hsub : m.col - jj = (m.col - (jj + 1)) + 1 := by omega
        rw [h5, hsub]
        simp only [keptCount, if_neg hskip, Nat.mul_succ]
        omega

theorem retainedFrom_getElem_kept (rn : Int) (jj : Nat) (cs : List SEXP) (j : Nat)
    (hne : ((jj + j : Nat) : Int) ≠ rn) :
    (retainedFrom rn jj cs)[keptCount rn j jj]? = cs[j]? := by
  induction cs generalizing jj j with
  | nil => simp [retainedFrom]
  | cons c cs ih =>
    cases j with
    | zero =>
      have h0 : ¬ (jj : Int) = rn := by simpa using hne
      simp [retainedFrom, keptCount, h0]
    | succ j =>
      have hne2 : ((jj + 1 + j : Nat) : Int) ≠ rn := by
        have : jj + (j + 1) = jj + 1 + j := by omega
        rw [← this]; exact hne
      by_cases hskip : (jj : Int) = rn
      · simp only [retainedFrom, keptCount, if_pos hskip, List.getElem?_cons_succ]
        exact ih (jj + 1) j hne2
      · simp only [retainedFrom, keptCount, if_neg hskip, List.getElem?_cons_succ]
        exact ih (jj + 1) j hne2

theorem retained_getElem_kept (dt : List SEXP) (rn : Int) (j : Nat) (hne : (j : Int) ≠ rn) :
    (retained dt rn)[keptCount rn j 0]? = dt[j]? :=
  retainedFrom_getElem_kept rn 0 dt j (by simpa using hne)

/-- Every copy of the record is there in the buffer that a call within the
caller contract returns: the source cell exists, the slot exists, and the
slot holds the source cell. -/
theorem moves_realised (dt : List SEXP) (nrow ncol rownames : Int) (c0 mat : SEXP)
    (hfirst : (retained dt (wrap32 (rownames - 1))).head? = some c0)
    (hsup : (TYPEOF c0).supported = true)
    (hcols : ∀ c ∈ retained dt (wrap32 (rownames - 1)),
      TYPEOF c = TYPEOF c0 ∧ nrow.toNat ≤ c.len)
    (hm : 0 ≤ wrap32 (nrow * ncol))
    (hroom : nrow.toNat * (retained dt (wrap32 (rownames - 1))).length
      ≤ (wrap32 (nrow * ncol)).toNat)
    (hmat : asmatrix dt nrow ncol rownames = .ok mat)
    (m : Move) (hmem : m ∈ moves dt.length nrow (wrap32 (rownames - 1))) :
    ∃ c, dt[m.col]? = some c ∧ (m.col : Int) ≠ wrap32 (rownames - 1) ∧
      m.row < nrow.toNat ∧ m.row < c.len ∧
      m.dest < nrow.toNat * (retained dt (wrap32 (rownames - 1))).length ∧
      m.dest < mat.len ∧ mat.cells[m.dest]? = c.cells[m.row]? := by
  obtain ⟨mat2, h1, _, h3⟩ := asmatrix_ok dt nrow ncol rownames c0 hfirst hsup hcols hm hroom
  rw [hmat] at h1
  injection h1 with h1
  subst h1
  obtain ⟨_, hlt, hne, hrow, hdest⟩ := mem_colMoves _ _ _ _ _ m hmem
  simp only [Nat.zero_add, Nat.sub_zero] at hlt hdest
  have hc : dt[m.col]? = some dt[m.col] := List.getElem?_eq_getElem hlt
  have hk := retained_getElem_kept dt (wrap32 (rownames - 1)) m.col hne
  rw [hc] at hk
  have hcmem : dt[m.col] ∈ retained dt (wrap32 (rownames - 1)) :=
    List.getElem?_mem hk
  have hclen := (hcols _ hcmem).2
  have hklt : keptCount (wrap32 (rownames - 1)) m.col 0
      < (retained dt (wrap32 (rownames - 1))).length := (List.getElem?_eq_some.mp hk).1
  have huni : ∀ c ∈ retained dt (wrap32 (rownames - 1)),
      ((fun c : SEXP => c.cells.take nrow.toNat) c).length = nrow.toNat := by
    intro c hcm
    have := (hcols c hcm).2
    simp only [List.length_take]
    exact Nat.min_eq_left this
  have hget := flatMap_uniform_getElem (fun c : SEXP => c.cells.take nrow.toNat) nrow.toNat
    (retained dt (wrap32 (rownames - 1))) huni _ m.row _ hk hrow
  have hdlt : m.dest < nrow.toNat * (retained dt (wrap32 (rownames - 1))).length := by
    rw [hdest]
    calc nrow.toNat * keptCount (wrap32 (rownames - 1)) m.col 0 + m.row
        < nrow.toNat * keptCount (wrap32 (rownames - 1)) m.col 0 + nrow.toNat := by omega
      _ = nrow.toNat * (keptCount (wrap32 (rownames - 1)) m.col 0 + 1) := by
          rw [Nat.mul_succ]
      _ ≤ nrow.toNat * (retained dt (wrap32 (rownames - 1))).length :=
          Nat.mul_le_mul_left _ hklt
  have hpl := packed_length dt nrow (wrap32 (rownames - 1)) (fun c hcm => (hcols c hcm).2)
  have hmlen : mat.len = (wrap32 (nrow * ncol)).toNat := by
    rw [SEXP.len, h3, List.length_append, hpl, List.length_replicate]
    omega
  refine ⟨dt[m.col], hc, hne, hrow, by omega, hdlt, by omega, ?_⟩
  rw [h3, List.getElem?_append_left (by rw [hpl]; exact hdlt)]
  have hidx : m.dest = keptCount (wrap32 (rownames - 1)) m.col 0 * nrow.toNat + m.row := by
    rw [hdest, Nat.mul_comm]
  rw [hidx]
  unfold packed
  rw [hget, List.getElem?_take_of_lt hrow]

/-! ## Truncated columns -/

theorem TYPEOF_truncate (n : Nat) (c : SEXP) : TYPEOF (c.truncate n) = TYPEOF c := by
  cases c <;> rfl

theorem truncateFrom_length (n : Nat) (rn : Int) (j0 : Nat) (cs : List SEXP) :
    (truncateFrom n rn j0 cs).length = cs.length := by
  induction cs generalizing j0 with
  | nil => rfl
  | cons c cs ih => simp only [truncateFrom, List.length_cons, ih]

theorem truncateFrom_getElem (n : Nat) (rn : Int) (j0 : Nat) (cs : List SEXP) (j : Nat) :
    (truncateFrom n rn j0 cs)[j]?
      = (cs[j]?).map (fun c => if ((j0 + j : Nat) : Int) = rn then c else c.truncate n) := by
  induction cs generalizing j0 j with
  | nil => simp [truncateFrom]
  | cons c cs ih =>
    cases j with
    | zero => simp [truncateFrom]
    | succ j =>
      simp only [truncateFrom, List.getElem?_cons_succ, ih (j0 + 1) j]
      have : j0 + 1 + j = j0 + (j + 1) := by omega
      rw [this]

theorem genRows_congr {β γ μ : Type} (K : Kit β γ μ) (b b2 : β) (bound : Nat)
    (h : ∀ ii, ii < bound → K.read b2 ii = K.read b ii) (todo ii : Nat) (st : μ × Nat)
    (hb : ii + todo ≤ bound) :
    genRows K b2 todo ii st = genRows K b todo ii st := by
  induction todo generalizing ii st with
  | zero => rfl
  | succ k ih =>
    obtain ⟨mat, v⟩ := st
    simp only [genRows, h ii (by omega), bind, Except.bind]
    cases K.read b ii with
    | error e => rfl
    | ok x =>
      simp only []
      cases K.write mat v x with
      | error e => rfl
      | ok mat2 => exact ih (ii + 1) (mat2, v + 1) (by omega)

theorem genCols_truncate {β γ μ : Type} (K : Kit β γ μ) (n : Int) (hK : TruncStable K n.toNat)
    (dt : List SEXP) (rn : Int) (todo jj : Nat) (st : μ × Nat) :
    genCols K (truncateRetained dt n rn) n rn todo jj st = genCols K dt n rn todo jj st := by
  induction todo generalizing jj st with
  | zero => rfl
  | succ k ih =>
    by_cases hskip : (jj : Int) = rn
    · simp only [genCols, if_pos hskip]
      exact ih (jj + 1) st
    · have hget : (truncateRetained dt n rn)[jj]? = (dt[jj]?).map (SEXP.truncate n.toNat) := by
        rw [truncateRetained, truncateFrom_getElem]
        simp only [Nat.zero_add, if_neg hskip]
      simp only [genCols, if_neg hskip, VECTOR_ELT, readAt, hget, bind, Except.bind]
      cases dt[jj]? with
      | none => rfl
      | some c =>
        simp only [Option.map]
        obtain ⟨he, ho⟩ := hK c
        cases hc : K.column c with
        | error e => rw [he e hc]
        | ok b =>
          obtain ⟨b2, hb2, hrd⟩ := ho b hc
          rw [hb2]
          simp only []
          rw [genRows_congr K b b2 n.toNat hrd n.toNat 0 st (by omega)]
          cases genRows K b n.toNat 0 st with
          | error e => rfl
          | ok st2 => exact ih (jj + 1) st2

theorem genRoutine_truncate {β γ μ : Type} (K : Kit β γ μ) (n : Int)
    (hK : TruncStable K n.toNat) (dt : List SEXP) (matlen rn : Int) :
    genRoutine K (truncateRetained dt n rn) matlen n rn = genRoutine K dt matlen n rn := by
  have hlen : (truncateRetained dt n rn).length = dt.length := truncateFrom_length _ _ _ _
  simp only [genRoutine, hlen, genCols_truncate K n hK]

theorem readAt_take {α : Type} (d : List α) (n ii : Nat) (h : ii < n) :
    readAt (d.take n) ii = readAt d ii := by
  simp only [readAt, List.getElem?_take_of_lt h]

theorem kitLogical_truncStable (n : Nat) : TruncStable kitLogical n := by
  intro c
  cases c <;> simp [kitLogical, LOGICAL, SEXP.truncate]
  intro ii h; exact readAt_take _ n ii h

theorem kitInteger_truncStable (n : Nat) : TruncStable kitInteger n := by
  intro c
  cases c <;> simp [kitInteger, INTEGER, SEXP.truncate]
  intro ii h; exact readAt_take _ n ii h

theorem kitNumeric_truncStable (n : Nat) : TruncStable kitNumeric n := by
  intro c
  cases c <;> simp [kitNumeric, REAL, SEXP.truncate]
  intro ii h; exact readAt_take _ n ii h

theorem kitComplex_truncStable (n : Nat) : TruncStable kitComplex n := by
  intro c
  cases c <;> simp [kitComplex, COMPLEX, SEXP.truncate]
  intro ii h; exact readAt_take _ n ii h

theorem kitCharacter_truncStable (n : Nat) : TruncStable kitCharacter n := by
  intro c
  refine ⟨fun e h => (by cases h), fun b hb => ⟨c.truncate n, rfl, ?_⟩⟩
  have hb2 : c = b := by injection hb
  subst hb2
  intro ii h
  cases c <;> simp only [kitCharacter, STRING_ELT, SEXP.truncate]
  exact readAt_take _ n ii h

theorem kitList_truncStable (n : Nat) : TruncStable kitList n := by
  intro c
  refine ⟨fun e h => (by cases h), fun b hb => ⟨c.truncate n, rfl, ?_⟩⟩
  have hb2 : c = b := by injection hb
  subst hb2
  intro ii h
  cases c <;> simp only [kitList, LIST_ELT, SEXP.truncate]
  exact readAt_take _ n ii h

/-- A call of `asmatrix` on the collection with its retained columns cut
down to their first `nrow` cells is the call on the collection. -/
theorem asmatrix_truncate (dt : List SEXP) (nrow ncol rownames : Int) :
    asmatrix (truncateRetained dt nrow (wrap32 (rownames - 1))) nrow ncol rownames
      = asmatrix dt nrow ncol rownames := by
  have hget : ∀ j, (truncateRetained dt nrow (wrap32 (rownames - 1)))[j]?
      = (dt[j]?).map (fun c => if ((0 + j : Nat) : Int) = wrap32 (rownames - 1) then c
          else c.truncate nrow.toNat) := fun j => truncateFrom_getElem _ _ 0 dt j
  simp only [asmatrix, VECTOR_ELT, readAt, hget, bind, Except.bind]
  cases dt[if wrap32 (rownames - 1) = 0 then 1 else 0]? with
  | none => rfl
  | some c =>
    have hT : ∀ (b : Prop) [Decidable b],
        TYPEOF (if b then c else c.truncate nrow.toNat) = TYPEOF c := by
      intro b _
      split
      · rfl
      · exact TYPEOF_truncate _ c
    simp only [Option.map, hT]
    cases TYPEOF c <;>
      first
      | rfl
      | (simp only [asmatrix_logical_isRoutine _ _ _ _]
         exact genRoutine_truncate _ _ (kitLogical_truncStable _) _ _ _)
      | (simp only [asmatrix_integer_isRoutine _ _ _ _]
         exact genRoutine_truncate _ _ (kitInteger_truncStable _) _ _ _)
      | (simp only [asmatrix_numeric_isRoutine _ _ _ _]
         exact genRoutine_truncate _ _ (kitNumeric_truncStable _) _ _ _)
      | (simp only [asmatrix_complex_isRoutine _ _ _ _]
         exact genRoutine_truncate _ _ (kitComplex_truncStable _) _ _ _)
      | (simp only [asmatrix_character_isRoutine _ _ _ _]
         exact genRoutine_truncate _ _ (kitCharacter_truncStable _) _ _ _)
      | (simp only [asmatrix_list_isRoutine _ _ _ _]
         exact genRoutine_truncate _ _ (kitList_truncStable _) _ _ _)

/-! ## The writes fit in the buffer -/

/-- C12, as stated, fails at three calls that meet its contract: two
columns of different supported types (the numeric routine applies `REAL` to
the logical column); a first column of an unsupported type before a
supported one (the error of line 162); and `n = -1`, for which
`matlen = -1` is rejected by `allocVector`. -/
theorem C12_counterexample :
    (ClaimedContract [.real [some ⟨1⟩], .lgl [some 1]] 1 2 0 ∧
      asmatrix [.real [some ⟨1⟩], .lgl [some 1]] 1 2 0 = .error .wrongType) ∧
    (ClaimedContract [.other .CLOSXP rfl, .lgl []] 0 2 0 ∧
      asmatrix [.other .CLOSXP rfl, .lgl []] 0 2 0 = .error (.unsupportedType .CLOSXP)) ∧
    (ClaimedContract [.lgl []] (-1) 1 0 ∧
      asmatrix [.lgl []] (-1) 1 0 = .error .badAlloc) := by
  refine ⟨⟨?_, by decide⟩, ⟨?_, by decide⟩, ⟨?_, by decide⟩⟩ <;>
    (unfold ClaimedContract; decide)

/-- C12 (amended): for every call where the first retained column exists
and has a supported type, every retained column has that same type and at
least `n` cells, `n ≥ 0`, `p` is the number of retained columns and `n * p`
fits an `int`, the call returns a buffer and reaches no fault: the column
that the type is read from is in the collection, and for every copy
`pmat[vecIdx] = pcol[ii]` that is performed, column `jj` is in the
collection, `ii` is below the number of cells of that column, and `vecIdx`
is below `matlen`, the number of cells of the buffer; the slot then holds
the cell read. -/
theorem C12_in_bounds (dt : List SEXP) (n p rownames : Int)
    (h : CallerContract dt n p rownames) :
    ∃ mat log, asmatrix dt n p rownames = .ok mat ∧
      logAsmatrix dt n p rownames = .ok (mat, log) ∧
      (mat.len : Int) = n * p ∧ wrap32 (n * p) = n * p ∧
      (∃ c, dt[if wrap32 (rownames - 1) = 0 then 1 else 0]? = some c) ∧
      ∀ m ∈ log, ∃ c, dt[m.col]? = some c ∧ m.row < c.len ∧ m.dest < mat.len ∧
        mat.cells[m.dest]? = c.cells[m.row]? := by
  obtain ⟨⟨c0, hfirst, hsup, hcols⟩, hn, hp, hfit⟩ := h
  have hprod : n * p
      = ((n.toNat * (retained dt (wrap32 (rownames - 1))).length : Nat) : Int) := by
    rw [hp]; push_cast; rw [Int.toNat_of_nonneg hn]
  have hw : wrap32 (n * p) = n * p := by
    apply wrap32_of_range _ _ hfit
    rw [hprod]; unfold INT_MIN; omega
  have hcols2 : ∀ c ∈ retained dt (wrap32 (rownames - 1)),
      TYPEOF c = TYPEOF c0 ∧ n.toNat ≤ c.len := by
    intro c hc
    obtain ⟨h1, h2⟩ := hcols c hc
    exact ⟨h1, by omega⟩
  have hm : 0 ≤ wrap32 (n * p) := by rw [hw, hprod]; exact Int.ofNat_nonneg _
  have hroom : n.toNat * (retained dt (wrap32 (rownames - 1))).length
      ≤ (wrap32 (n * p)).toNat := by
    rw [hw, hprod, Int.toNat_ofNat]
  obtain ⟨mat, hmat, _, _⟩ := asmatrix_ok dt n p rownames c0 hfirst hsup hcols2 hm hroom
  obtain ⟨log, hl⟩ := logAsmatrix_of_ok dt n p rownames mat hmat
  have hlog := logAsmatrix_log dt n p rownames mat log hl
  obtain ⟨_, _, _, _, _, hlen⟩ := asmatrix_returns dt n p rownames mat hmat
  refine ⟨mat, log, hmat, hl, ?_, hw, ⟨c0, by rw [← retained_head]; exact hfirst⟩, ?_⟩
  · rw [hlen, hw, hprod, Int.toNat_ofNat]
  · intro m hmem
    rw [hlog] at hmem
    obtain ⟨c, h1, _, _, h4, _, h6, h7⟩ :=
      moves_realised dt n p rownames c0 mat hfirst hsup hcols2 hm hroom hmat m hmem
    exact ⟨c, h1, h4, h6, h7⟩

/-- C12 (amended), at a character row-name column followed by two numeric
columns of two cells, `rownames = 1`, `n = 2`, `p = 2`. -/
theorem C12_in_bounds_witness :
    ∃ mat log, asmatrix [.str [some ⟨7⟩, some ⟨8⟩], .real [some ⟨1⟩, some ⟨2⟩],
          .real [some ⟨3⟩, some ⟨4⟩]] 2 2 1 = .ok mat ∧
      logAsmatrix [.str [some ⟨7⟩, some ⟨8⟩], .real [some ⟨1⟩, some ⟨2⟩],
          .real [some ⟨3⟩, some ⟨4⟩]] 2 2 1 = .ok (mat, log) ∧
      (mat.len : Int) = 2 * 2 ∧ wrap32 (2 * 2) = 2 * 2 ∧
      (∃ c, [SEXP.str [some ⟨7⟩, some ⟨8⟩], SEXP.real [some ⟨1⟩, some ⟨2⟩],
          SEXP.real [some ⟨3⟩, some ⟨4⟩]][if wrap32 (1 - 1) = 0 then 1 else 0]? = some c) ∧
      ∀ m ∈ log, ∃ c, [SEXP.str [some ⟨7⟩, some ⟨8⟩], SEXP.real [some ⟨1⟩, some ⟨2⟩],
          SEXP.real [some ⟨3⟩, some ⟨4⟩]][m.col]? = some c ∧ m.row < c.len ∧ m.dest < mat.len ∧
        mat.cells[m.dest]? = c.cells[m.row]? :=
  C12_in_bounds [.str [some ⟨7⟩, some ⟨8⟩], .real [some ⟨1⟩, some ⟨2⟩],
    .real [some ⟨3⟩, some ⟨4⟩]] 2 2 1 (by unfold CallerContract; decide)

/-! ## C13: concatenation of collections -/

/-- C13, as stated, fails for `b = 0`: there is no packed buffer of an
empty collection `B` (the column to read the type from is outside it),
while `A ++ B` is packed; and it fails where `n * (a + b)` does not fit the
`int` `matlen`. -/
theorem C13_counterexample :
    (asmatrix ([.int [some 1]] ++ []) 1 (1 + 0) 0 = .ok (.int [some 1]) ∧
      asmatrix [.int [some 1]] 1 1 0 = .ok (.int [some 1]) ∧
      asmatrix [] 1 0 0 = .error .outOfRange) ∧
    ((SEXP.lgl (List.replicate 2147483647 none)).len = 2147483647 ∧
      asmatrix ([.lgl (List.replicate 2147483647 none)]
        ++ [.lgl (List.replicate 2147483647 none)]) 2147483647 (1 + 1) 0 = .error .badAlloc) :=
  ⟨⟨by decide, by decide, by decide⟩, len_lgl_replicate 2147483647, by rfl⟩

/-- C13 (amended): for every `n` and every two collections `A` (`a ≥ 1`
columns) and `B` (`b ≥ 1` columns) of the same supported type `T` whose
columns each hold `n` cells, with `n * (a + b) ≤ INT_MAX` and no column
excluded, packing `A ++ B` with `ncol = a + b` yields the packed buffer of
`A` (`ncol = a`) followed by the packed buffer of `B` (`ncol = b`). -/
theorem C13_concatenation (T : SEXPTYPE) (hT : T.supported = true) (n a b : Nat)
    (ha : 1 ≤ a) (hb : 1 ≤ b) (hfit : (n : Int) * ((a : Int) + (b : Int)) ≤ INT_MAX)
    (A B : List SEXP) (hA : A.length = a) (hB : B.length = b)
    (hcolsA : ∀ c ∈ A, TYPEOF c = T ∧ c.len = n)
    (hcolsB : ∀ c ∈ B, TYPEOF c = T ∧ c.len = n)
    (r : Int) (hr : ∀ j : Nat, j < a + b → (j : Int) ≠ wrap32 (r - 1)) :
    ∃ mA mB mAB, asmatrix A n a r = .ok mA ∧ asmatrix B n b r = .ok mB ∧
      asmatrix (A ++ B) n ((a : Int) + (b : Int)) r = .ok mAB ∧
      TYPEOF mAB = T ∧ mAB.len = mA.len + mB.len ∧ mAB.cells = mA.cells ++ mB.cells := by
  have hretA : retained A (wrap32 (r - 1)) = A :=
    retained_none A _ (fun j hj => hr j (by omega))
  have hretB : retained B (wrap32 (r - 1)) = B :=
    retained_none B _ (fun j hj => hr j (by omega))
  have hretAB : retained (A ++ B) (wrap32 (r - 1)) = A ++ B :=
    retained_none (A ++ B) _ (fun j hj => hr j (by rw [List.length_append] at hj; omega))
  have hna : (n : Int) * (a : Int) ≤ INT_MAX := by
    have : (n : Int) * (a : Int) ≤ (n : Int) * ((a : Int) + (b : Int)) :=
      Int.mul_le_mul_of_nonneg_left (by omega) (Int.ofNat_nonneg n)
    omega
  have hnb : (n : Int) * (b : Int) ≤ INT_MAX := by
    have : (n : Int) * (b : Int) ≤ (n : Int) * ((a : Int) + (b : Int)) :=
      Int.mul_le_mul_of_nonneg_left (by omega) (Int.ofNat_nonneg n)
    omega
  obtain ⟨mA, h1, _, _, h4, _⟩ := asmatrix_layout T hT n a ha hna A r
    (by rw [hretA]; exact hA) (by rw [hretA]; exact hcolsA)
  obtain ⟨mB, h5, _, _, h8, _⟩ := asmatrix_layout T hT n b hb hnb B r
    (by rw [hretB]; exact hB) (by rw [hretB]; exact hcolsB)
  have hcast : ((a + b : Nat) : Int) = (a : Int) + (b : Int) := by push_cast; rfl
  obtain ⟨mAB, h9, h10, _, h12, _⟩ := asmatrix_layout T hT n (a + b) (by omega)
    (by rw [hcast]; exact hfit) (A ++ B) r
    (by rw [hretAB, List.length_append, hA, hB])
    (by
      rw [hretAB]
      intro c hc
      rcases List.mem_append.mp hc with h | h
      · exact hcolsA c h
      · exact hcolsB c h)
  rw [hcast] at h9
  rw [hretA] at h4
  rw [hretB] at h8
  rw [hretAB] at h12
  have hcells : mAB.cells = mA.cells ++ mB.cells := by
    rw [h12, h4, h8, List.flatMap_append]
  refine ⟨mA, mB, mAB, h1, h5, h9, h10, ?_, hcells⟩
  rw [SEXP.len, hcells, List.length_append]
  rfl

/-- C13 (amended), at one numeric column followed by two, of two cells. -/
theorem C13_concatenation_witness :
    ∃ mA mB mAB, asmatrix [.real [some ⟨1⟩, some ⟨2⟩]] (2 : Nat) (1 : Nat) 0 = .ok mA ∧
      asmatrix [.real [some ⟨3⟩, some ⟨4⟩], .real [some ⟨5⟩, some ⟨6⟩]] (2 : Nat) (2 : Nat) 0
        = .ok mB ∧
      asmatrix ([.real [some ⟨1⟩, some ⟨2⟩]]
          ++ [.real [some ⟨3⟩, some ⟨4⟩], .real [some ⟨5⟩, some ⟨6⟩]])
        (2 : Nat) (((1 : Nat) : Int) + ((2 : Nat) : Int)) 0 = .ok mAB ∧
      TYPEOF mAB = .REALSXP ∧ mAB.len = mA.len + mB.len ∧ mAB.cells = mA.cells ++ mB.cells :=
  C13_concatenation .REALSXP rfl 2 1 2 (by decide) (by decide) (by decide)
    [.real [some ⟨1⟩, some ⟨2⟩]] [.real [some ⟨3⟩, some ⟨4⟩], .real [some ⟨5⟩, some ⟨6⟩]]
    rfl rfl (by decide) (by decide) 0 (by decide)

/-! ## C14: only the first `n` cells of a column -/

/-- C14: for every call, the output (a buffer or a fault) is the output of
the call on the collection whose retained columns are cut down to their
first `n` cells; two collections that are the same after that cut give the
same output; and every copy that a call performs reads a row below `n`. -/
theorem C14_first_n_cells (dt : List SEXP) (nrow ncol rownames : Int) :
    asmatrix (truncateRetained dt nrow (wrap32 (rownames - 1))) nrow ncol rownames
      = asmatrix dt nrow ncol rownames ∧
    (∀ dt2 : List SEXP,
      truncateRetained dt2 nrow (wrap32 (rownames - 1))
        = truncateRetained dt nrow (wrap32 (rownames - 1)) →
      asmatrix dt2 nrow ncol rownames = asmatrix dt nrow ncol rownames) ∧
    (∀ mat log, logAsmatrix dt nrow ncol rownames = .ok (mat, log) →
      asmatrix dt nrow ncol rownames = .ok mat ∧
      ∀ m ∈ log, (m.row : Int) < nrow ∧ (m.col : Int) ≠ wrap32 (rownames - 1)) := by
  refine ⟨asmatrix_truncate dt nrow ncol rownames, ?_, ?_⟩
  · intro dt2 h
    rw [← asmatrix_truncate dt2, ← asmatrix_truncate dt, h]
  · intro mat log hl
    have he := logAsmatrix_erase dt nrow ncol rownames
    rw [hl] at he
    refine ⟨he.symm, ?_⟩
    intro m hm
    rw [logAsmatrix_log dt nrow ncol rownames mat log hl] at hm
    obtain ⟨_, _, h3, h4, _⟩ := mem_colMoves _ _ _ _ _ m hm
    exact ⟨by omega, h3⟩

/-- C14, at two character columns, the first of three cells, and `n = 2`. -/
theorem C14_first_n_cells_witness :
    asmatrix [.str [some ⟨1⟩, some ⟨2⟩, some ⟨9⟩], .str [some ⟨3⟩, some ⟨4⟩]] 2 2 0
      = asmatrix [.str [some ⟨1⟩, some ⟨2⟩, some ⟨5⟩, some ⟨6⟩], .str [some ⟨3⟩, some ⟨4⟩]] 2 2 0 :=
  (C14_first_n_cells [.str [some ⟨1⟩, some ⟨2⟩, some ⟨5⟩, some ⟨6⟩], .str [some ⟨3⟩, some ⟨4⟩]]
    2 2 0).2.1 [.str [some ⟨1⟩, some ⟨2⟩, some ⟨9⟩], .str [some ⟨3⟩, some ⟨4⟩]] (by decide)

/-! ## C15: one generic routine -/

theorem cplx_cell_of_cells (d2 : List (Option Rcomplex)) (i : Nat) (z : Rcomplex)
    (h : (SEXP.cplx d2).cells[i]? = some (some (Elt.cplx z))) : d2[i]? = some (some z) := by
  simp only [SEXP.cells, List.getElem?_map] at h
  cases hd : d2[i]? with
  | none => rw [hd] at h; cases h
  | some o =>
    rw [hd] at h
    cases o with
    | none => simp at h
    | some z2 =>
      simp only [Option.map_some', Option.some.injEq, Elt.cplx.injEq] at h
      rw [h]

/-- C15: each of the six routines is the generic routine, for its kit.  The
copies that the generic routine performs, in order, are `moves`: a function
of the column count, `n` and the exclusion index alone, the same for every
kit, hence for every element type, and for all cells; the copy of row `ii`
of column `jj` goes to slot `n * k + ii`, `k` being the number of
non-excluded columns before `jj`.  In the buffer that a call within the
caller contract returns, the slot of each copy holds the cell copied; a
complex cell is there with its real and its imaginary component. -/
theorem C15_one_generic_routine :
    (IsRoutineOf kitLogical asmatrix_logical ∧ IsRoutineOf kitInteger asmatrix_integer ∧
      IsRoutineOf kitNumeric asmatrix_numeric ∧ IsRoutineOf kitComplex asmatrix_complex ∧
      IsRoutineOf kitCharacter asmatrix_character ∧ IsRoutineOf kitList asmatrix_list) ∧
    (∀ (β γ μ : Type) (K : Kit β γ μ) (dt : List SEXP) (matlen n rncolnum : Int),
      (logRoutine K dt matlen n rncolnum).map Prod.fst = genRoutine K dt matlen n rncolnum) ∧
    (∀ (β γ μ : Type) (K : Kit β γ μ) (dt : List SEXP) (matlen n rncolnum : Int)
        (mat : SEXP) (log : List Move),
      logRoutine K dt matlen n rncolnum = .ok (mat, log) →
        log = moves dt.length n rncolnum) ∧
    (∀ (ncols : Nat) (n rncolnum : Int) (m : Move), m ∈ moves ncols n rncolnum →
      m.col < ncols ∧ (m.col : Int) ≠ rncolnum ∧ m.row < n.toNat ∧
        m.dest = n.toNat * keptCount rncolnum m.col 0 + m.row) ∧
    (∀ (dt : List SEXP) (n p rownames : Int), CallerContract dt n p rownames →
      ∃ mat, asmatrix dt n p rownames = .ok mat ∧
        ∀ m ∈ moves dt.length n (wrap32 (rownames - 1)),
          ∃ c, dt[m.col]? = some c ∧ mat.cells[m.dest]? = c.cells[m.row]? ∧
            ∀ d z, c = SEXP.cplx d → d[m.row]? = some (some z) →
              ∃ d2 z2, mat = SEXP.cplx d2 ∧ d2[m.dest]? = some (some z2) ∧
                z2.r = z.r ∧ z2.i = z.i) := by
  refine ⟨⟨asmatrix_logical_isRoutine, asmatrix_integer_isRoutine, asmatrix_numeric_isRoutine,
    asmatrix_complex_isRoutine, asmatrix_character_isRoutine, asmatrix_list_isRoutine⟩,
    ?_, ?_, ?_, ?_⟩
  · intro β γ μ K dt matlen n rn
    exact logRoutine_erase K dt matlen n rn
  · intro β γ μ K dt matlen n rn mat log h
    exact logRoutine_log K dt matlen n rn mat log h
  · intro ncols n rn m hm
    obtain ⟨_, h2, h3, h4, h5⟩ := mem_colMoves _ _ _ _ _ m hm
    simp only [Nat.zero_add, Nat.sub_zero] at h2 h5
    exact ⟨h2, h3, h4, h5⟩
  · intro dt n p rownames h
    obtain ⟨⟨c0, hfirst, hsup, hcols⟩, hn, hp, hfit⟩ := h
    have hprod : n * p
        = ((n.toNat * (retained dt (wrap32 (rownames - 1))).length : Nat) : Int) := by
      rw [hp]; push_cast; rw [Int.toNat_of_nonneg hn]
    have hw : wrap32 (n * p) = n * p := by
      apply wrap32_of_range _ _ hfit
      rw [hprod]; unfold INT_MIN; omega
    have hcols2 : ∀ c ∈ retained dt (wrap32 (rownames - 1)),
        TYPEOF c = TYPEOF c0 ∧ n.toNat ≤ c.len := by
      intro c hc
      obtain ⟨h1, h2⟩ := hcols c hc
      exact ⟨h1, by omega⟩
    have hm : 0 ≤ wrap32 (n * p) := by rw [hw, hprod]; exact Int.ofNat_nonneg _
    have hroom : n.toNat * (retained dt (wrap32 (rownames - 1))).length
        ≤ (wrap32 (n * p)).toNat := by
      rw [hw, hprod, Int.toNat_ofNat]
    obtain ⟨mat, hmat, hty, _⟩ := asmatrix_ok dt n p rownames c0 hfirst hsup hcols2 hm hroom
    refine ⟨mat, hmat, ?_⟩
    intro m hmem
    obtain ⟨c, h1, h2, _, _, _, _, h7⟩ :=
      moves_realised dt n p rownames c0 mat hfirst hsup hcols2 hm hroom hmat m hmem
    refine ⟨c, h1, h7, ?_⟩
    intro d z hc hz
    have hk := retained_getElem_kept dt (wrap32 (rownames - 1)) m.col h2
    rw [h1] at hk
    have hcT := (hcols2 c (List.getElem?_mem hk)).1
    have hmT : TYPEOF mat = .CPLXSXP := by rw [hty, ← hcT, hc]; rfl
    obtain ⟨d2, hd2⟩ := TYPEOF_cplx mat hmT
    have hcell : (SEXP.cplx d2).cells[m.dest]? = some (some (Elt.cplx z)) := by
      rw [← hd2, h7, hc]
      simp only [SEXP.cells, List.getElem?_map, hz, Option.map_some']
    exact ⟨d2, z, hd2, cplx_cell_of_cells d2 m.dest z hcell, rfl, rfl⟩

/-- C15, at two complex columns of one cell: the second cell of the buffer
is the cell of the second column, with both components. -/
theorem C15_one_generic_routine_witness :
    ∃ mat, asmatrix [.cplx [some ⟨⟨1⟩, ⟨2⟩⟩], .cplx [some ⟨⟨3⟩, ⟨4⟩⟩]] 1 2 0 = .ok mat ∧
      ∀ m ∈ moves [SEXP.cplx [some ⟨⟨1⟩, ⟨2⟩⟩], SEXP.cplx [some ⟨⟨3⟩, ⟨4⟩⟩]].length 1
          (wrap32 (0 - 1)),
        ∃ c, [SEXP.cplx [some ⟨⟨1⟩, ⟨2⟩⟩], SEXP.cplx [some ⟨⟨3⟩, ⟨4⟩⟩]][m.col]? = some c ∧
          mat.cells[m.dest]? = c.cells[m.row]? ∧
          ∀ d z, c = SEXP.cplx d → d[m.row]? = some (some z) →
            ∃ d2 z2, mat = SEXP.cplx d2 ∧ d2[m.dest]? = some (some z2) ∧
              z2.r = z.r ∧ z2.i = z.i :=
  C15_one_generic_routine.2.2.2.2
    [.cplx [some ⟨⟨1⟩, ⟨2⟩⟩], .cplx [some ⟨⟨3⟩, ⟨4⟩⟩]] 1 2 0
    (by unfold CallerContract; decide)

end AsMatrix
